import Mathlib

/-!
Verification of the scheduler-py repository against its specification.

This file gives a shallow embedding, in Lean, of the parts of the code that
the claims concern:

* optimize-service/main.py  — the multi-vehicle route optimizer service:
  travel/service callbacks, planning epoch, technician time windows,
  fixed-time constraints, drop disjunction penalties, response assembly.
  The OR-Tools solver itself is external; a "solver output" is modelled as
  any assignment satisfying the constraint system that the code builds
  (time dimension with zero slack, so cumulative times propagate by
  equality; vehicle window and capacity bounds; fixed-time pins), together
  with the result-reconstruction code that turns such an assignment into
  the response payload.

* src/scheduler/utils.py    — calculate_daily_available_windows and
  fit_dynamic_units_into_windows.

* src/scheduler/scheduler.py — _optimize_and_finalize_daily_schedule and
  the technician-selection step of assign_jobs.

* src/scheduler/routing.py  — calculate_travel_time and the constraint
  system of optimize_daily_route_and_get_time (single vehicle, 24h
  capacity, zero slack, fixed units pinned to a 60-second window).

Times are seconds since the Unix epoch, as produced by iso_to_seconds in
the source; ISO-8601 parsing is outside the embedding, so timestamps are
Int values throughout.  Haversine travel estimation is floating point in
the source; it is abstracted by an oracle argument giving the integer
minute value computed by the source before the max-with-5 clamp, which is
all any claim depends on.
-/

namespace Spec2Proof

/-! ## optimize-service: data model (models.py) -/

/-- Embeds OptimizationLocation from optimize-service/models.py.
The opaque external id and coordinates play no role in any claim and are
omitted; the solver-facing integer index is kept. -/
structure OptimizationLocation where
  index : Int
deriving DecidableEq

/-- Embeds OptimizationTechnician from optimize-service/models.py, with the
two ISO timestamps already converted to seconds by iso_to_seconds. -/
structure OptimizationTechnician where
  id : Int
  startLocationIndex : Int
  endLocationIndex : Int
  earliestStart : Int
  latestEnd : Int
deriving DecidableEq

/-- Embeds OptimizationItem from optimize-service/models.py.  The pydantic
model declares priority as a required int, so it is never None. -/
structure OptimizationItem where
  id : String
  locationIndex : Int
  durationSeconds : Int
  priority : Int
  eligibleTechnicianIds : List Int
deriving DecidableEq

/-- Embeds OptimizationFixedConstraint, fixedTimeISO already in seconds. -/
structure OptimizationFixedConstraint where
  itemId : String
  fixedTime : Int
deriving DecidableEq

/-- Embeds OptimizationRequestPayload.  The travel time matrix
Dict[int, Dict[int, int]] is an association list of rows, each row an
association list from destination index to seconds. -/
structure Payload where
  locations : List OptimizationLocation
  technicians : List OptimizationTechnician
  items : List OptimizationItem
  fixedConstraints : List OptimizationFixedConstraint
  travelTimeMatrix : List (Int × List (Int × Int))
deriving DecidableEq

/-! ## optimize-service: callbacks and model construction (main.py) -/

/-- location_index_map.get, main.py line 87: find the payload location whose
index field equals the node id. -/
def lookupLoc (locs : List OptimizationLocation) (n : Int) : Option OptimizationLocation :=
  locs.find? (fun l => l.index == n)

/-- travelTimeMatrix.get(f, dict()).get(t): the nested dictionary lookup,
returning none when either level misses. -/
def matrixLookup (m : List (Int × List (Int × Int))) (f t : Int) : Option Int :=
  (m.find? (fun row => row.1 == f)).bind (fun row => (row.2.find? (fun q => q.1 == t)).map (fun q => q.2))

/-- travel_time_callback, main.py lines 101-126: missing locations or a
missing matrix entry yield the large sentinel cost 999999. -/
def travel_time_callback (p : Payload) (fromNode toNode : Int) : Int :=
  match lookupLoc p.locations fromNode, lookupLoc p.locations toNode with
  | some fl, some tl => (matrixLookup p.travelTimeMatrix fl.index tl.index).getD 999999
  | _, _ => 999999

/-- service_time_callback, main.py lines 134-140: the duration of the first
item located at the node, 0 for nodes with no item (depots). -/
def service_time_callback (p : Payload) (node : Int) : Int :=
  match p.items.find? (fun it => it.locationIndex == node) with
  | some it => it.durationSeconds
  | none => 0

/-- transit_plus_service_time_callback, main.py lines 143-150: travel from
the source node plus service at the source node, saturated to 999999 when
either input reaches the sentinel. -/
def transitPS (p : Payload) (fromNode toNode : Int) : Int :=
  let travel := travel_time_callback p fromNode toNode
  let service := service_time_callback p fromNode
  if 999999 ≤ travel ∨ 999999 ≤ service then 999999 else travel + service

/-- Planning epoch, main.py line 74: the minimum technician earliest start.
Defined as 0 on an empty technician list, which the endpoint rules out
before reaching this computation. -/
def planningEpoch (p : Payload) : Int :=
  match p.technicians with
  | [] => 0
  | t :: ts => ts.foldl (fun acc x => min acc x.earliestStart) t.earliestStart

/-- Relative technician window, main.py lines 179-194: both ends clamped at
0, and when the relative start exceeds the relative end the end is clamped
up to the start (the code warns and continues rather than rejecting). -/
def techWindowRel (p : Payload) (t : OptimizationTechnician) : Int × Int :=
  let s := max 0 (t.earliestStart - planningEpoch p)
  let e := max 0 (t.latestEnd - planningEpoch p)
  if e < s then (s, s) else (s, e)

/-- Relative fixed time, main.py line 208. -/
def fixedRel (p : Payload) (c : OptimizationFixedConstraint) : Int :=
  max 0 (c.fixedTime - planningEpoch p)

/-- item_id_to_payload_index, main.py line 85: a dict comprehension keeps the
last item with a given id, hence the reversed search. -/
def findItemLast (p : Payload) (itemId : String) : Option OptimizationItem :=
  p.items.reverse.find? (fun it => it.id == itemId)

/-- find_item_by_location, main.py lines 326-330: the first item at a
location. -/
def find_item_by_location (p : Payload) (n : Int) : Option OptimizationItem :=
  p.items.find? (fun it => it.locationIndex == n)

/-- Maximum horizon relative to the epoch, main.py line 159. -/
def maxRelHorizon (p : Payload) : Int :=
  match p.technicians with
  | [] => 0
  | t :: ts => ts.foldl (fun acc x => max acc (x.latestEnd - planningEpoch p)) (t.latestEnd - planningEpoch p)

/-- horizon_with_buffer, main.py lines 160-162: one week of slack, clamped
at 0.  This is the per-vehicle capacity of the time dimension. -/
def horizonWithBuffer (p : Payload) : Int :=
  max 0 (maxRelHorizon p + 7 * 24 * 3600)

/-! ## optimize-service: drop disjunctions and penalties (main.py 216-297) -/

/-- base_penalty, main.py line 229. -/
def base_penalty : Int := 100000

/-- max_priority, main.py line 225: maximum priority over the items
(priority is a required int field, so the None filter keeps every item),
with default 1 on an empty batch. -/
def maxPriorityInBatch (p : Payload) : Int :=
  match p.items.map (fun it => it.priority) with
  | [] => 1
  | x :: xs => xs.foldl max x

/-- Whether a location index is the start or end depot of any vehicle,
main.py lines 242-248 (the comparison against the solver representation of
routing.Start and routing.End for each vehicle). -/
def isDepotLocation (p : Payload) (loc : Int) : Bool :=
  p.technicians.any (fun t => t.startLocationIndex == loc || t.endLocationIndex == loc)

/-- eligible_vehicles, main.py lines 261-264: the technicians whose id
appears in the item's eligible list. -/
def eligibleVehicles (p : Payload) (it : OptimizationItem) : List OptimizationTechnician :=
  p.technicians.filter (fun t => it.eligibleTechnicianIds.contains t.id)

/-- Outcome of the per-item disjunction loop of main.py lines 231-296. -/
inductive DisjunctionDecision where
  | skippedInvalidLocation
  | depotMandatory
  | noEligibleSkipped
  | dropPenalty (pen : Int)
deriving DecidableEq

/-- The disjunction decision for one item: invalid location indices are
skipped (line 233), items at any depot get no disjunction and are therefore
mandatory (lines 251-256), items with no eligible vehicle get no
disjunction (lines 267-270), and other items get a drop disjunction whose
penalty is base_penalty times (max priority minus item priority plus one),
clamped up to 0 when negative (lines 272-290). -/
def itemDisjunction (p : Payload) (it : OptimizationItem) : DisjunctionDecision :=
  if ¬ (0 ≤ it.locationIndex ∧ it.locationIndex < (p.locations.length : Int)) then
    .skippedInvalidLocation
  else if isDepotLocation p it.locationIndex then
    .depotMandatory
  else if eligibleVehicles p it = [] then
    .noEligibleSkipped
  else
    .dropPenalty (let pen := base_penalty * (maxPriorityInBatch p - it.priority + 1);
                  if pen < 0 then 0 else pen)

/-! ## optimize-service: the constraint system solved by OR-Tools

The routing model of main.py is: one node per payload location; per vehicle
a start node (the technician's startLocationIndex) and an end node; a time
dimension whose transit callback is transitPS and whose slack is 0, so along
a route the cumulative time propagates by equality; the start and end cumul
variables of vehicle i are constrained to techWindowRel (lines 193-194);
every cumul variable lies in the dimension capacity range
0..horizonWithBuffer; and fixed constraints pin the cumul of the
constrained item's location node to the exact relative fixed time
(line 212).  A solver output is any assignment satisfying this system. -/

/-- One vehicle's solved route: the cumulative time at the start node, the
visited non-end stops as location-node and cumulative-time pairs, and the
cumulative time at the end node. -/
structure Route where
  startTime : Int
  stops : List (Int × Int)
  endTime : Int
deriving DecidableEq

/-- The zero-slack time-dimension propagation along a route: each cumul
equals the previous cumul plus transitPS of the traversed arc, ending at
the vehicle's end node. -/
def routeChain (p : Payload) : Int → Int → List (Int × Int) → Int → Int → Prop
  | prevN, prevT, [], endN, endT => endT = prevT + transitPS p prevN endN
  | prevN, prevT, (n, tm) :: rest, endN, endT =>
      tm = prevT + transitPS p prevN n ∧ routeChain p n tm rest endN endT

instance instDecRouteChain (p : Payload) :
    ∀ (prevN prevT : Int) (stops : List (Int × Int)) (endN endT : Int),
      Decidable (routeChain p prevN prevT stops endN endT)
  | _, _, [], _, _ => by unfold routeChain; infer_instance
  | prevN, prevT, (n, tm) :: rest, endN, endT => by
      unfold routeChain
      have := instDecRouteChain p n tm rest endN endT
      infer_instance

/-- A route satisfies the constraint system main.py builds for technician t:
start and end cumuls inside the relative vehicle window, all cumuls inside
the dimension capacity, zero-slack transit propagation, and every visit to
the location node of a fixed-constrained item pinned to the relative fixed
time. -/
def FeasibleRoute (p : Payload) (t : OptimizationTechnician) (r : Route) : Prop :=
  (techWindowRel p t).1 ≤ r.startTime ∧ r.startTime ≤ (techWindowRel p t).2 ∧
  (techWindowRel p t).1 ≤ r.endTime ∧ r.endTime ≤ (techWindowRel p t).2 ∧
  0 ≤ r.startTime ∧ r.startTime ≤ horizonWithBuffer p ∧
  0 ≤ r.endTime ∧ r.endTime ≤ horizonWithBuffer p ∧
  (∀ q ∈ r.stops, 0 ≤ q.2 ∧ q.2 ≤ horizonWithBuffer p) ∧
  routeChain p t.startLocationIndex r.startTime r.stops t.endLocationIndex r.endTime ∧
  (∀ c ∈ p.fixedConstraints, ∀ it, findItemLast p c.itemId = some it →
    ∀ q ∈ r.stops, q.1 = it.locationIndex → q.2 = fixedRel p c)

instance instDecFeasibleRoute (p : Payload) (t : OptimizationTechnician) (r : Route) :
    Decidable (FeasibleRoute p t r) := by
  unfold FeasibleRoute
  infer_instance

/-- A full solver output: one route per technician, positionally. -/
structure Solution where
  routes : List Route
deriving DecidableEq

/-- Feasibility of a full solver output. -/
def FeasibleSolution (p : Payload) (sol : Solution) : Prop :=
  sol.routes.length = p.technicians.length ∧
  ∀ pr ∈ p.technicians.zip sol.routes, FeasibleRoute p pr.1 pr.2

instance instDecFeasibleSolution (p : Payload) (sol : Solution) :
    Decidable (FeasibleSolution p sol) := by
  unfold FeasibleSolution
  infer_instance

/-! ## optimize-service: result reconstruction (main.py 319-527) -/

/-- The departure time used when reconstructing the arrival at a stop whose
predecessors along the route are pre (main.py lines 388-398): for the first
segment the technician's relative earliest start, afterwards the previous
stop's cumul plus its service time. -/
def segmentDeparture (p : Payload) (t : OptimizationTechnician) (pre : List (Int × Int)) : Int :=
  match pre.getLast? with
  | none => max 0 (t.earliestStart - planningEpoch p)
  | some q => q.2 + service_time_callback p q.1

/-- The node the reconstruction travels from when arriving at the stop
after pre. -/
def segmentPrevNode (t : OptimizationTechnician) (pre : List (Int × Int)) : Int :=
  match pre.getLast? with
  | none => t.startLocationIndex
  | some q => q.1

/-- physical_arrival_at_next_rel, main.py line 401: departure plus travel
into the stop at node n. -/
def mvArrival (p : Payload) (t : OptimizationTechnician) (pre : List (Int × Int)) (n : Int) : Int :=
  segmentDeparture p t pre + travel_time_callback p (segmentPrevNode t pre) n

/-- The ids the walk over one route adds to assigned_item_ids: for each
visited node, the first item at that location (main.py lines 367-372). -/
def routeItemIds (p : Payload) (r : Route) : List String :=
  r.stops.filterMap (fun q => (find_item_by_location p q.1).map (fun it => it.id))

/-- The post-hoc eligibility check of main.py lines 472-483: every item
reported on the route must list the technician as eligible. -/
def routeIsValid (p : Payload) (t : OptimizationTechnician) (r : Route) : Bool :=
  (routeItemIds p r).all (fun itemId =>
    match findItemLast p itemId with
    | some it => it.eligibleTechnicianIds.contains t.id
    | none => true)

/-- The per-vehicle accumulation of assigned item ids (main.py lines
321-483): each vehicle's reported ids are added, then discarded again if
the route fails the eligibility re-check. -/
def assignedIdsFold (p : Payload) : List (OptimizationTechnician × Route) → List String → List String
  | [], acc => acc
  | (t, r) :: rest, acc =>
      let acc2 := acc ++ routeItemIds p r
      let acc3 := if routeIsValid p t r then acc2
                  else acc2.filter (fun itemId => !((routeItemIds p r).contains itemId))
      assignedIdsFold p rest acc3

/-- The assigned-id set after processing all vehicles. -/
def assignedIds (p : Payload) (sol : Solution) : List String :=
  assignedIdsFold p (p.technicians.zip sol.routes) []

/-- unassigned_item_ids, main.py line 494. -/
def unassignedOf (p : Payload) (sol : Solution) : List String :=
  (p.items.filter (fun it => !((assignedIds p sol).contains it.id))).map (fun it => it.id)

/-- One reported stop of the response (models.py RouteStop), times absolute. -/
structure RouteStopOut where
  itemId : String
  arrivalTime : Int
  startTime : Int
  endTime : Int
deriving DecidableEq

/-- The reconstructed stops of one route (main.py lines 339-433): for the
k-th visited node carrying an item, the physical arrival (departure from
the predecessor plus travel), the solver start cumul, and start plus the
item's duration, all shifted back by the planning epoch. -/
def buildStopsOut (p : Payload) (t : OptimizationTechnician) (r : Route) : List RouteStopOut :=
  (List.range r.stops.length).filterMap (fun k =>
    match r.stops.get? k with
    | none => none
    | some q =>
      match find_item_by_location p q.1 with
      | none => none
      | some it =>
          some { itemId := it.id
                 arrivalTime := mvArrival p t (r.stops.take k) q.1 + planningEpoch p
                 startTime := q.2 + planningEpoch p
                 endTime := q.2 + it.durationSeconds + planningEpoch p })

/-- One reported technician route of the response. -/
structure TechRouteOut where
  technicianId : Int
  stops : List RouteStopOut
deriving DecidableEq

/-- routes of the response (main.py lines 470-491): only non-empty routes
that pass the eligibility re-check are reported.  The two aggregate
travel/duration totals are not modelled; no claim concerns them. -/
def buildRoutes (p : Payload) (sol : Solution) : List TechRouteOut :=
  (p.technicians.zip sol.routes).filterMap (fun pr =>
    let stops := buildStopsOut p pr.1 pr.2
    if stops = [] then none
    else if routeIsValid p pr.1 pr.2 then some { technicianId := pr.1.id, stops := stops }
    else none)

/-- The response payload (models.py OptimizationResponsePayload). -/
structure Response where
  status : String
  message : String
  routes : List TechRouteOut
  unassignedItemIds : List String
deriving DecidableEq

/-- Status and message classification of main.py lines 496-508. -/
def statusOfAssigned (p : Payload) (sol : Solution) : String :=
  if unassignedOf p sol = [] then "success"
  else if (unassignedOf p sol).length < p.items.length then "partial"
  else "error"

/-- The whole endpoint, main.py optimize_schedule: the empty-items and
empty-technicians early returns (lines 66-69), then the solver call whose
outcome is the Option Solution argument, no-solution handling (lines
519-527) and result assembly (lines 493-518).  The only pre-solve
exception path, HTTPException on unparsable ISO strings, is outside the
embedding because timestamps are already integers here. -/
def optimize_schedule (p : Payload) (solverResult : Option Solution) : Response :=
  if p.items = [] then
    { status := "success", message := "No items provided for scheduling.",
      routes := [], unassignedItemIds := [] }
  else if p.technicians = [] then
    { status := "error", message := "No technicians available for scheduling.",
      routes := [], unassignedItemIds := p.items.map (fun it => it.id) }
  else
    match solverResult with
    | none =>
        { status := "error", message := "Optimization failed. No solution found.",
          routes := [], unassignedItemIds := p.items.map (fun it => it.id) }
    | some sol =>
        { status := statusOfAssigned p sol
          message :=
            if unassignedOf p sol = [] then "Optimization successful. All items scheduled."
            else if (unassignedOf p sol).length < p.items.length then
              "Optimization partially successful. " ++ toString (unassignedOf p sol).length
                ++ " items could not be scheduled."
            else "Optimization failed. No routes could be assigned."
          routes := buildRoutes p sol
          unassignedItemIds := unassignedOf p sol }

/-- The pre-solve phase viewed on its own: either an early response (no
items, or no technicians) or the built model, here represented by the list
of relative technician windows the code installs before solving.  There is
no rejection branch for a start-after-end technician window; such a window
is clamped by techWindowRel and solving proceeds. -/
structure BuiltModel where
  techWindows : List (Int × Int)
deriving DecidableEq

/-- The window constraints installed on the model, main.py lines 179-194. -/
def buildModel (p : Payload) : BuiltModel :=
  { techWindows := p.technicians.map (techWindowRel p) }

/-- The control flow of optimize_schedule before the solver runs. -/
def preprocessResult (p : Payload) : Sum Response BuiltModel :=
  if p.items = [] then
    .inl { status := "success", message := "No items provided for scheduling.",
           routes := [], unassignedItemIds := [] }
  else if p.technicians = [] then
    .inl { status := "error", message := "No technicians available for scheduling.",
           routes := [], unassignedItemIds := p.items.map (fun it => it.id) }
  else
    .inr (buildModel p)

/-! ## scheduler: data model (src/scheduler/models.py, reduced to the fields
the claims touch) -/

/-- An address; only identity matters to the claims (the haversine distance
on the coordinates is abstracted by an oracle), so the coordinates are kept
as opaque integers. -/
structure Address where
  lat : Int
  lng : Int
deriving DecidableEq

/-- A SchedulableUnit, with datetimes as seconds and the fields the
window/fit/optimize logic reads. -/
structure SchedUnit where
  uid : String
  location : Option Address
  duration : Int
  priority : Int
  fixed_schedule_time : Option Int
deriving DecidableEq

/-! ## scheduler: calculate_travel_time (routing.py lines 32-72) -/

/-- calculate_travel_time: 5 minutes when either location is missing or the
two are equal, otherwise the haversine estimate clamped below by 5 minutes.
The oracle hav gives the value of the Python expression int(hours * 60) for
a pair of distinct addresses; the source then takes max(5, that) minutes
and returns it as a timedelta, i.e. 60 times that many seconds. -/
def calculate_travel_time (hav : Address → Address → Int) :
    Option Address → Option Address → Int
  | none, _ => 300
  | some _, none => 300
  | some a, some b => if a = b then 300 else 60 * max 5 (hav a b)

/-! ## scheduler: calculate_daily_available_windows (utils.py lines 95-156) -/

/-- The running state of the window walk: emitted windows, the cursor
last_event_end_time, the location last_event_location, and the fixed units
placed so far (used to state the coverage guarantee). -/
structure WinState where
  windows : List (Int × Int × Address)
  cursor : Int
  loc : Address
  placed : List SchedUnit
deriving DecidableEq

/-- One iteration of the fixed-unit loop, utils.py lines 128-150: invalid
data (no fixed time, non-positive duration, no location) is skipped; a unit
that starts at or after the cursor and ends by day end emits the gap window
before it (when non-empty) and advances the cursor and location; any other
unit is skipped without advancing anything. -/
def winStep (dayEnd : Int) (st : WinState) (u : SchedUnit) : WinState :=
  match u.fixed_schedule_time, u.location with
  | some fs, some floc =>
      if u.duration ≤ 0 then st
      else if st.cursor ≤ fs ∧ fs + u.duration ≤ dayEnd then
        { windows := st.windows ++ (if st.cursor < fs then [(st.cursor, fs, st.loc)] else [])
          cursor := fs + u.duration
          loc := floc
          placed := st.placed ++ [u] }
      else st
  | _, _ => st

/-- Sort key relation for the fixed units, utils.py lines 119-122. -/
def fixedTimeLE (a b : SchedUnit) : Prop :=
  a.fixed_schedule_time.getD 0 ≤ b.fixed_schedule_time.getD 0

instance : DecidableRel fixedTimeLE := fun a b =>
  inferInstanceAs (Decidable (a.fixed_schedule_time.getD 0 ≤ b.fixed_schedule_time.getD 0))

/-- The fixed units of the day, sorted ascending by fixed time (a stable
sort, like Python's sorted). -/
def fixedUnitsSorted (units : List SchedUnit) : List SchedUnit :=
  (units.filter (fun u => u.fixed_schedule_time.isSome)).insertionSort fixedTimeLE

/-- The full fold over the day's fixed units. -/
def windowsFold (units : List SchedUnit) (dayStart dayEnd : Int) (startLoc : Address) : WinState :=
  (fixedUnitsSorted units).foldl (winStep dayEnd)
    { windows := [], cursor := dayStart, loc := startLoc, placed := [] }

/-- calculate_daily_available_windows: the emitted gap windows plus the
final window up to day end when non-empty (utils.py lines 152-156). -/
def calculate_daily_available_windows (units : List SchedUnit) (dayStart dayEnd : Int)
    (startLoc : Address) : List (Int × Int × Address) :=
  let st := windowsFold units dayStart dayEnd startLoc
  st.windows ++ (if st.cursor < dayEnd then [(st.cursor, dayEnd, st.loc)] else [])

/-- The fixed units the walk accepted (validly placed). -/
def placedUnits (units : List SchedUnit) (dayStart dayEnd : Int) (startLoc : Address) :
    List SchedUnit :=
  (windowsFold units dayStart dayEnd startLoc).placed

/-- The fixed start of a unit, 0 when absent (only read on placed units,
which always carry one). -/
def fixedStartOf (u : SchedUnit) : Int := u.fixed_schedule_time.getD 0

/-! ## scheduler: fit_dynamic_units_into_windows (utils.py lines 158-213) -/

/-- Remove the first window whose length can hold the duration, returning
none when no window fits (the inner loop of utils.py lines 185-204). -/
def popFirstFit (dur : Int) : List (Int × Int × Address) → Option (List (Int × Int × Address))
  | [] => none
  | w :: rest =>
      if dur ≤ w.2.1 - w.1 then some rest
      else (popFirstFit dur rest).map (fun ws => w :: ws)

/-- The outer loop over the prioritised dynamic units: a unit with
non-positive duration is skipped; otherwise it is scheduled into (and
consumes) the first fitting window. -/
def fitDynAux : List SchedUnit → List (Int × Int × Address) →
    List SchedUnit × List (Int × Int × Address)
  | [], ws => ([], ws)
  | u :: rest, ws =>
      if u.duration ≤ 0 then fitDynAux rest ws
      else
        match popFirstFit u.duration ws with
        | some ws2 =>
            let out := fitDynAux rest ws2
            (u :: out.1, out.2)
        | none => fitDynAux rest ws

/-- fit_dynamic_units_into_windows: the scheduled units in order, and the
input units whose id was not scheduled (utils.py lines 211-213). -/
def fit_dynamic_units_into_windows (dyn : List SchedUnit) (ws : List (Int × Int × Address)) :
    List SchedUnit × List SchedUnit :=
  let scheduled := (fitDynAux dyn ws).1
  (scheduled, dyn.filter (fun u => !((scheduled.map (fun v => v.uid)).contains u.uid)))

/-! ## scheduler: _optimize_and_finalize_daily_schedule (scheduler.py 70-147) -/

/-- The optimizer's output as consumed by the finalisation step: the
optimised unit sequence and the total elapsed time for the day. -/
structure DayOptResult where
  optimized_units : List SchedUnit
  total_time : Int
deriving DecidableEq

/-- The duration check of scheduler.py lines 120-133: within the available
duration the optimiser's output becomes the day schedule and the remaining
pool is untouched; over it, only the fixed units are committed and the
attempted dynamic units (those of all_units_today whose id was scheduled
today) are appended back onto the remaining pool.  Returns (day schedule,
updated remaining pool). -/
def finalizeDay (fixedToday dynToday remaining : List SchedUnit) (res : DayOptResult)
    (totalDuration : Int) : List SchedUnit × List SchedUnit :=
  let all_units_today := fixedToday ++ dynToday
  let scheduledIds := dynToday.map (fun u => u.uid)
  if res.total_time ≤ totalDuration then
    (res.optimized_units, remaining)
  else
    (fixedToday, remaining ++ all_units_today.filter (fun u => scheduledIds.contains u.uid))

/-- Priority ordering on units (lower number first), the sort key of
scheduler.py lines 399 and 453. -/
def prioLE (a b : SchedUnit) : Prop := a.priority ≤ b.priority

instance : DecidableRel prioLE := fun a b =>
  inferInstanceAs (Decidable (a.priority ≤ b.priority))

instance : IsTotal SchedUnit prioLE := ⟨fun a b => Int.le_total a.priority b.priority⟩

instance : IsTrans SchedUnit prioLE := ⟨fun _ _ _ h1 h2 => le_trans h1 h2⟩

/-- One technician-day of the planning loop, scheduler.py lines 433-453:
fit the pending dynamic units into the windows, finalise against the
optimiser result, then re-sort the remaining pool by priority.  Returns
(day schedule, re-sorted remaining pool). -/
def technicianDay (fixedToday pending : List SchedUnit) (ws : List (Int × Int × Address))
    (res : DayOptResult) (totalDuration : Int) : List SchedUnit × List SchedUnit :=
  ((finalizeDay fixedToday (fit_dynamic_units_into_windows pending ws).1
      (fit_dynamic_units_into_windows pending ws).2 res totalDuration).1,
   (finalizeDay fixedToday (fit_dynamic_units_into_windows pending ws).1
      (fit_dynamic_units_into_windows pending ws).2 res totalDuration).2.insertionSort prioLE)

/-! ## scheduler: technician selection in assign_jobs (scheduler.py 294-351) -/

/-- Python's min with a key over an insertion-ordered dict: scan keeping
the current best, replacing it only on a strictly smaller key, so ties keep
the earliest element. -/
def minByEtaGo : Int → Int → List (Int × Int) → Int
  | best, _, [] => best
  | best, bestEta, (t, e) :: rest =>
      if e < bestEta then minByEtaGo t e rest else minByEtaGo best bestEta rest

/-- min(etas, key=etas.get) over candidate (technician id, ETA) pairs in
list order; none on an empty dict. -/
def minByEta : List (Int × Int) → Option Int
  | [] => none
  | (t, e) :: rest => some (minByEtaGo t e rest)

/-- The etas dict built at scheduler.py lines 302-306 (and 334-339): the
eligible technicians in their list order, keeping those with a
non-None calculate_eta result. -/
def candidateEtas (techIds : List Int) (eta : Int → Option Int) : List (Int × Int) :=
  techIds.filterMap (fun t => (eta t).map (fun e => (t, e)))

/-- best_tech_for_order (line 309) and best_tech_for_job (line 342): the
minimum-ETA technician of the candidates. -/
def assign_order_best_tech (techIds : List Int) (eta : Int → Option Int) : Option Int :=
  minByEta (candidateEtas techIds eta)

/-! ## scheduler: calculate_eta window scan (scheduler.py lines 222-242) -/

/-- The arrival computed when probing one window: the window start plus the
travel from the location preceding the window to the unit's location
(scheduler.py lines 230-234). -/
def etaWindowArrival (hav : Address → Address → Int) (unitLoc : Address)
    (w : Int × Int × Address) : Int :=
  w.1 + calculate_travel_time hav (some w.2.2) (some unitLoc)

/-- The scan over a day's windows: the potential start is the later of the
window start and the arrival, and the first window that holds the whole
duration yields the ETA (scheduler.py lines 223-242). -/
def etaScan (hav : Address → Address → Int) (unitLoc : Address) (dur : Int) :
    List (Int × Int × Address) → Option Int
  | [] => none
  | w :: rest =>
      let pstart := max w.1 (etaWindowArrival hav unitLoc w)
      if pstart + dur ≤ w.2.1 then some pstart else etaScan hav unitLoc dur rest

/-! ## scheduler: optimize_daily_route_and_get_time constraint system
(routing.py lines 74-291)

One vehicle; node 0 is the depot (the day's start location), node i+1 is
units[i]; the time dimension's transit is travel plus the destination
node's service duration, with zero slack and capacity 86400; a unit with a
fixed schedule time has its cumul pinned to the window from the relative
fixed time to that plus a 60 second buffer (lines 192-208); the reported
start of a unit is day_start plus its cumul (lines 250-253). -/

/-- The location of a node of the single-vehicle model. -/
def rtLoc (startLoc : Address) (units : List SchedUnit) (n : Nat) : Option Address :=
  if n = 0 then some startLoc else (units.get? (n - 1)).bind (fun u => u.location)

/-- The service duration of a node: 0 at the depot, the unit's duration
otherwise (routing.py lines 169-175). -/
def rtDur (units : List SchedUnit) (n : Nat) : Int :=
  if n = 0 then 0 else ((units.get? (n - 1)).map (fun u => u.duration)).getD 0

/-- The time-dimension transit of the single-vehicle model: travel between
the two nodes' locations plus service at the destination. -/
def rtTransit (hav : Address → Address → Int) (startLoc : Address) (units : List SchedUnit)
    (fromN toN : Nat) : Int :=
  calculate_travel_time hav (rtLoc startLoc units fromN) (rtLoc startLoc units toN)
    + rtDur units toN

/-- A solved single-vehicle route: start cumul, visited (node, cumul)
stops, end cumul (the end node is the depot, node 0). -/
structure RtRoute where
  startTime : Int
  stops : List (Nat × Int)
  endTime : Int
deriving DecidableEq

/-- Zero-slack propagation along the single-vehicle route. -/
def rtChain (hav : Address → Address → Int) (startLoc : Address) (units : List SchedUnit) :
    Nat → Int → List (Nat × Int) → Int → Prop
  | prevN, prevT, [], endT => endT = prevT + rtTransit hav startLoc units prevN 0
  | prevN, prevT, (n, tm) :: rest, endT =>
      tm = prevT + rtTransit hav startLoc units prevN n ∧
      rtChain hav startLoc units n tm rest endT

instance instDecRtChain (hav : Address → Address → Int) (startLoc : Address)
    (units : List SchedUnit) :
    ∀ (prevN : Nat) (prevT : Int) (stops : List (Nat × Int)) (endT : Int),
      Decidable (rtChain hav startLoc units prevN prevT stops endT)
  | _, _, [], _ => by unfold rtChain; infer_instance
  | prevN, prevT, (n, tm) :: rest, endT => by
      unfold rtChain
      have := instDecRtChain hav startLoc units n tm rest endT
      infer_instance

/-- The relative fixed time of routing.py line 198-201. -/
def rtFixedRel (dayStart f : Int) : Int := max 0 (f - dayStart)

/-- Feasibility for the constraint system routing.py builds: all cumuls in
the 24-hour capacity, zero-slack propagation from the depot back to the
depot, and each visited fixed unit's cumul inside the 60-second window
above its relative fixed time. -/
def RtFeasible (hav : Address → Address → Int) (startLoc : Address) (units : List SchedUnit)
    (dayStart : Int) (r : RtRoute) : Prop :=
  0 ≤ r.startTime ∧ r.startTime ≤ 86400 ∧
  0 ≤ r.endTime ∧ r.endTime ≤ 86400 ∧
  (∀ q ∈ r.stops, 0 ≤ q.2 ∧ q.2 ≤ 86400) ∧
  rtChain hav startLoc units 0 r.startTime r.stops r.endTime ∧
  (∀ q ∈ r.stops, q.1 ≠ 0 → ∀ u, units.get? (q.1 - 1) = some u →
    ∀ f, u.fixed_schedule_time = some f →
      rtFixedRel dayStart f ≤ q.2 ∧ q.2 ≤ rtFixedRel dayStart f + 60)

instance instDecRtFeasible (hav : Address → Address → Int) (startLoc : Address)
    (units : List SchedUnit) (dayStart : Int) (r : RtRoute) :
    Decidable (RtFeasible hav startLoc units dayStart r) := by
  unfold RtFeasible
  infer_instance

/-! ## Helper lemmas -/

theorem foldl_min_le_init (l : List OptimizationTechnician) (a : Int) :
    l.foldl (fun acc x => min acc x.earliestStart) a ≤ a := by
  induction l generalizing a with
  | nil => exact le_refl a
  | cons x xs ih =>
      calc xs.foldl (fun acc y => min acc y.earliestStart) (min a x.earliestStart)
            ≤ min a x.earliestStart := ih _
        _ ≤ a := min_le_left _ _

theorem foldl_min_le_mem (l : List OptimizationTechnician) (a : Int)
    (t : OptimizationTechnician) (h : t ∈ l) :
    l.foldl (fun acc x => min acc x.earliestStart) a ≤ t.earliestStart := by
  induction l generalizing a with
  | nil => cases h
  | cons x xs ih =>
      rcases List.mem_cons.mp h with h1 | h1
      · subst h1
        calc xs.foldl (fun acc y => min acc y.earliestStart) (min a t.earliestStart)
              ≤ min a t.earliestStart := foldl_min_le_init xs _
          _ ≤ t.earliestStart := min_le_right _ _
      · exact ih _ h1

/-- The planning epoch is below every technician's earliest start. -/
theorem planningEpoch_le (p : Payload) (t : OptimizationTechnician)
    (h : t ∈ p.technicians) : planningEpoch p ≤ t.earliestStart := by
  unfold planningEpoch
  cases hp : p.technicians with
  | nil => rw [hp] at h; cases h
  | cons x xs =>
      rw [hp] at h
      rcases List.mem_cons.mp h with h1 | h1
      · subst h1; exact foldl_min_le_init xs _
      · exact foldl_min_le_mem xs _ t h1

theorem le_foldl_max (l : List Int) (a : Int) : a ≤ l.foldl max a := by
  induction l generalizing a with
  | nil => exact le_refl a
  | cons x xs ih =>
      calc a ≤ max a x := le_max_left _ _
        _ ≤ xs.foldl max (max a x) := ih _

theorem mem_le_foldl_max (l : List Int) (a x : Int) (h : x ∈ l) : x ≤ l.foldl max a := by
  induction l generalizing a with
  | nil => cases h
  | cons y ys ih =>
      rcases List.mem_cons.mp h with h1 | h1
      · subst h1
        calc x ≤ max a x := le_max_right _ _
          _ ≤ ys.foldl max (max a x) := le_foldl_max ys _
      · exact ih _ h1

theorem foldl_max_eq_or_mem (l : List Int) (a : Int) :
    l.foldl max a = a ∨ l.foldl max a ∈ l := by
  induction l generalizing a with
  | nil => exact Or.inl rfl
  | cons x xs ih =>
      rcases ih (max a x) with h | h
      · rcases max_choice a x with h2 | h2
        · exact Or.inl (by simpa [h2] using h)
        · refine Or.inr ?_
          simp only [List.foldl_cons]
          rw [h, h2]
          exact List.mem_cons_self _ _
      · exact Or.inr (List.mem_cons_of_mem _ h)

/-- Every item's priority is below the batch maximum. -/
theorem priority_le_maxPriority (p : Payload) (it : OptimizationItem) (h : it ∈ p.items) :
    it.priority ≤ maxPriorityInBatch p := by
  unfold maxPriorityInBatch
  have hm : it.priority ∈ p.items.map (fun x => x.priority) := List.mem_map_of_mem _ h
  cases hl : p.items.map (fun x => x.priority) with
  | nil => rw [hl] at hm; cases hm
  | cons x xs =>
      rw [hl] at hm
      rcases List.mem_cons.mp hm with h1 | h1
      · subst h1; exact le_foldl_max xs _
      · exact mem_le_foldl_max xs _ _ h1

/-- On a non-empty batch the maximum is attained by some item. -/
theorem maxPriority_attained (p : Payload) (h : p.items ≠ []) :
    ∃ it ∈ p.items, maxPriorityInBatch p = it.priority := by
  unfold maxPriorityInBatch
  cases hl : p.items.map (fun x => x.priority) with
  | nil => exact absurd (List.map_eq_nil_iff.mp hl) h
  | cons x xs =>
      have hmem : xs.foldl max x ∈ x :: xs := by
        rcases foldl_max_eq_or_mem xs x with h1 | h1
        · rw [h1]; exact List.mem_cons_self _ _
        · exact List.mem_cons_of_mem _ h1
      rw [← hl] at hmem
      rcases List.mem_map.mp hmem with ⟨it, hit, heq⟩
      exact ⟨it, hit, heq.symm⟩

theorem length_filter_eq_iff {α : Type} (pb : α → Bool) (l : List α) :
    (l.filter pb).length = l.length ↔ ∀ a ∈ l, pb a = true := by
  induction l with
  | nil => simp
  | cons x xs ih =>
      by_cases hx : pb x = true
      · simp [hx, ih]
      · simp only [List.filter_cons, hx, if_false, Bool.false_eq_true, List.length_cons]
        constructor
        · intro h
          have := List.length_filter_le pb xs
          omega
        · intro h
          exact absurd (h x (List.mem_cons_self _ _)) hx

/-! ## Claim C9 -/

/-- C9: with an empty items list optimize_schedule answers success with
empty routes and empty unassignedItemIds; with items but no technicians it
answers error with every input item id unassigned; in both cases the
response is produced by the pre-solve early exits, independently of any
solver outcome. -/
theorem C9_early_exits (p : Payload) (o : Option Solution) :
    (p.items = [] →
      optimize_schedule p o =
        { status := "success", message := "No items provided for scheduling.",
          routes := [], unassignedItemIds := [] } ∧
      preprocessResult p =
        Sum.inl { status := "success", message := "No items provided for scheduling.",
                  routes := [], unassignedItemIds := [] }) ∧
    (p.items ≠ [] → p.technicians = [] →
      optimize_schedule p o =
        { status := "error", message := "No technicians available for scheduling.",
          routes := [], unassignedItemIds := p.items.map (fun it => it.id) } ∧
      preprocessResult p =
        Sum.inl { status := "error", message := "No technicians available for scheduling.",
                  routes := [], unassignedItemIds := p.items.map (fun it => it.id) }) := by
  constructor
  · intro h
    constructor
    · simp [optimize_schedule, h]
    · simp [preprocessResult, h]
  · intro h1 h2
    constructor
    · simp [optimize_schedule, h1, h2]
    · simp [preprocessResult, h1, h2]

/-- A payload with no items at all. -/
def c9pEmpty : Payload :=
  { locations := [], technicians := [], items := [], fixedConstraints := [],
    travelTimeMatrix := [] }

/-- A payload with one item and no technicians. -/
def c9pNoTech : Payload :=
  { locations := [{ index := 0 }], technicians := [],
    items := [{ id := "a", locationIndex := 0, durationSeconds := 60, priority := 1,
                eligibleTechnicianIds := [] }],
    fixedConstraints := [], travelTimeMatrix := [] }

/-- Witness for C9 at two concrete payloads. -/
theorem C9_early_exits_witness :
    optimize_schedule c9pEmpty none =
      { status := "success", message := "No items provided for scheduling.",
        routes := [], unassignedItemIds := [] } ∧
    optimize_schedule c9pNoTech none =
      { status := "error", message := "No technicians available for scheduling.",
        routes := [], unassignedItemIds := ["a"] } :=
  ⟨((C9_early_exits c9pEmpty none).1 (by decide)).1,
   (((C9_early_exits c9pNoTech none).2 (by decide) (by decide)).1).trans (by decide)⟩

/-! ## Claim C5 -/

/-- A payload whose only technician has earliest start after latest end. -/
def c5p : Payload :=
  { locations := [{ index := 0 }],
    technicians := [{ id := 1, startLocationIndex := 0, endLocationIndex := 0,
                      earliestStart := 1000, latestEnd := 500 }],
    items := [{ id := "a", locationIndex := 0, durationSeconds := 60, priority := 1,
                eligibleTechnicianIds := [1] }],
    fixedConstraints := [], travelTimeMatrix := [] }

/-- C5 counterexample: a request with a start-after-end technician window is
not rejected; the pre-solve phase builds the model (processing continues to
the solver) with the window clamped to a single instant. -/
theorem C5_counterexample :
    (c5p.technicians.get? 0).all (fun t => t.latestEnd < t.earliestStart) = true ∧
    preprocessResult c5p = Sum.inr (buildModel c5p) ∧
    (buildModel c5p).techWindows = [((0 : Int), (0 : Int))] := by
  refine ⟨by decide, ?_, by decide⟩
  simp [preprocessResult, c5p]

/-- C5 (amended): a technician whose earliest start is after their latest
end is not rejected; the relative window is clamped to the single instant
at the relative earliest start (main.py lines 187-190) and, whenever the
request reaches the solve phase at all (non-empty items and technicians),
the model is built and solving proceeds. -/
theorem C5_clamped_window (p : Payload) (t : OptimizationTechnician)
    (ht : t ∈ p.technicians) (hbad : t.latestEnd < t.earliestStart) :
    techWindowRel p t =
      (max 0 (t.earliestStart - planningEpoch p), max 0 (t.earliestStart - planningEpoch p)) ∧
    (p.items ≠ [] → p.technicians ≠ [] → preprocessResult p = Sum.inr (buildModel p)) := by
  constructor
  · have hep := planningEpoch_le p t ht
    have h1 : max 0 (t.earliestStart - planningEpoch p) = t.earliestStart - planningEpoch p :=
      max_eq_right (by omega)
    have h2 : max 0 (t.latestEnd - planningEpoch p) ≤ max 0 (t.earliestStart - planningEpoch p) := by
      rcases le_total (t.latestEnd - planningEpoch p) 0 with hc | hc
      · rw [max_eq_left hc]
        exact le_max_left _ _
      · rw [max_eq_right hc, h1]
        omega
    simp only [techWindowRel]
    split_ifs with h
    · rfl
    · have heq : max 0 (t.latestEnd - planningEpoch p) = max 0 (t.earliestStart - planningEpoch p) :=
        le_antisymm h2 (not_lt.mp h)
      rw [heq]
  · intro h1 h2
    simp [preprocessResult, h1, h2]

/-- Witness for C5 at the concrete bad-window payload. -/
theorem C5_clamped_window_witness :
    techWindowRel c5p { id := 1, startLocationIndex := 0, endLocationIndex := 0,
                        earliestStart := 1000, latestEnd := 500 } = ((0 : Int), (0 : Int)) := by
  have h := (C5_clamped_window c5p
    { id := 1, startLocationIndex := 0, endLocationIndex := 0,
      earliestStart := 1000, latestEnd := 500 } (by decide) (by decide)).1
  simpa using h

/-! ## Claim C4 -/

/-- C4: a non-depot item with a valid location and at least one eligible
technician gets a drop disjunction with penalty
base_penalty * (maxPriorityInBatch - priority + 1) floored at 0, where
maxPriorityInBatch bounds and is attained by the batch's priorities; an
item at any vehicle depot gets no disjunction and is mandatory. -/
theorem C4_penalty (p : Payload) (it : OptimizationItem) (hit : it ∈ p.items)
    (hloc : 0 ≤ it.locationIndex ∧ it.locationIndex < (p.locations.length : Int)) :
    (isDepotLocation p it.locationIndex = false → eligibleVehicles p it ≠ [] →
      itemDisjunction p it =
        .dropPenalty (max 0 (base_penalty * (maxPriorityInBatch p - it.priority + 1)))) ∧
    (isDepotLocation p it.locationIndex = true → itemDisjunction p it = .depotMandatory) ∧
    it.priority ≤ maxPriorityInBatch p ∧
    (∃ it2 ∈ p.items, maxPriorityInBatch p = it2.priority) := by
  refine ⟨?_, ?_, priority_le_maxPriority p it hit, maxPriority_attained p ?_⟩
  · intro hdep helig
    unfold itemDisjunction
    rw [if_neg (by simp [hloc.1, hloc.2]), if_neg (by simp [hdep]), if_neg helig]
    have : (let pen := base_penalty * (maxPriorityInBatch p - it.priority + 1);
            if pen < 0 then 0 else pen) =
        max 0 (base_penalty * (maxPriorityInBatch p - it.priority + 1)) := by
      simp only []
      split_ifs with h
      · omega
      · omega
    rw [this]
  · intro hdep
    unfold itemDisjunction
    rw [if_neg (by simp [hloc.1, hloc.2]), if_pos hdep]
  · intro hnil
    rw [hnil] at hit; cases hit

/-- A two-item payload for the C4 witness: priorities 1 and 3, one
technician at location 0, items at locations 1 and 2. -/
def c4p : Payload :=
  { locations := [{ index := 0 }, { index := 1 }, { index := 2 }],
    technicians := [{ id := 1, startLocationIndex := 0, endLocationIndex := 0,
                      earliestStart := 0, latestEnd := 3600 }],
    items := [{ id := "a", locationIndex := 1, durationSeconds := 60, priority := 1,
                eligibleTechnicianIds := [1] },
              { id := "b", locationIndex := 2, durationSeconds := 60, priority := 3,
                eligibleTechnicianIds := [1] }],
    fixedConstraints := [], travelTimeMatrix := [] }

/-- Witness for C4: item a (priority 1, batch maximum 3) gets penalty
100000 * 3 = 300000. -/
theorem C4_penalty_witness :
    itemDisjunction c4p
      { id := "a", locationIndex := 1, durationSeconds := 60, priority := 1,
        eligibleTechnicianIds := [1] } = .dropPenalty 300000 := by
  have h := (C4_penalty c4p
    { id := "a", locationIndex := 1, durationSeconds := 60, priority := 1,
      eligibleTechnicianIds := [1] } (by decide) (by decide)).1 (by decide) (by decide)
  simpa using h

/-! ## Claim C10 -/

/-- calculate_travel_time never goes below 5 minutes (300 seconds),
whatever the haversine oracle says. -/
theorem calcTravel_ge (hav : Address → Address → Int) (a b : Option Address) :
    300 ≤ calculate_travel_time hav a b := by
  match a, b with
  | none, _ => simp [calculate_travel_time]
  | some x, none => simp [calculate_travel_time]
  | some x, some y =>
      simp only [calculate_travel_time]
      split_ifs with h
      · exact le_refl _
      · have h5 : (5 : Int) ≤ max 5 (hav x y) := le_max_left _ _
        have := mul_le_mul_of_nonneg_left h5 (show (0 : Int) ≤ 60 by norm_num)
        linarith

/-- C10: calculate_travel_time returns at least 5 minutes, and exactly 5
minutes when a location is missing or both are equal; hence every arrival
computed for a window in the calculate_eta scan is at least 5 minutes after
the window's start, and every ETA the scan returns is the max of a window
start and such an arrival. -/
theorem C10_min_travel :
    (∀ (hav : Address → Address → Int) (a b : Option Address),
        300 ≤ calculate_travel_time hav a b) ∧
    (∀ (hav : Address → Address → Int) (b : Option Address) (x : Address),
        calculate_travel_time hav none b = 300 ∧
        calculate_travel_time hav (some x) none = 300 ∧
        calculate_travel_time hav (some x) (some x) = 300) ∧
    (∀ (hav : Address → Address → Int) (unitLoc : Address) (w : Int × Int × Address),
        w.1 + 300 ≤ etaWindowArrival hav unitLoc w) ∧
    (∀ (hav : Address → Address → Int) (unitLoc : Address) (dur : Int)
        (ws : List (Int × Int × Address)) (ps : Int),
        etaScan hav unitLoc dur ws = some ps →
        ∃ w ∈ ws, ps = max w.1 (etaWindowArrival hav unitLoc w)) := by
  refine ⟨calcTravel_ge, ?_, ?_, ?_⟩
  · intro hav b x
    refine ⟨rfl, rfl, ?_⟩
    simp [calculate_travel_time]
  · intro hav unitLoc w
    have := calcTravel_ge hav (some w.2.2) (some unitLoc)
    unfold etaWindowArrival
    omega
  · intro hav unitLoc dur ws
    induction ws with
    | nil => intro ps h; simp [etaScan] at h
    | cons w rest ih =>
        intro ps h
        simp only [etaScan] at h
        split_ifs at h with hfit
        · exact ⟨w, List.mem_cons_self _ _, (Option.some_inj.mp h).symm⟩
        · rcases ih ps h with ⟨w2, hw2, heq⟩
          exact ⟨w2, List.mem_cons_of_mem _ hw2, heq⟩

/-- Witness for C10: a concrete scan returning an ETA 310 = max of window
start 10 and arrival 10 + 300 into the single window. -/
theorem C10_min_travel_witness :
    ∃ w ∈ [((10 : Int), (1000 : Int), Address.mk 0 0)],
      (310 : Int) = max w.1 (etaWindowArrival (fun _ _ => 0) (Address.mk 1 1) w) :=
  C10_min_travel.2.2.2 (fun _ _ => 0) (Address.mk 1 1) 100
    [((10 : Int), (1000 : Int), Address.mk 0 0)] 310 (by decide)

/-! ## Claim C8 -/

/-- Python's min-with-key scan keeps the initial best when nothing is
strictly smaller, and otherwise returns the first element attaining a
strict running minimum: strictly smaller than everything before it,
no larger than everything after it. -/
theorem minByEtaGo_spec (l : List (Int × Int)) (b be : Int) :
    (minByEtaGo b be l = b ∧ ∀ q ∈ l, be ≤ q.2) ∨
    (∃ l1 l2 e, l = l1 ++ (minByEtaGo b be l, e) :: l2 ∧ e < be ∧
      (∀ q ∈ l1, e < q.2) ∧ (∀ q ∈ l2, e ≤ q.2)) := by
  induction l generalizing b be with
  | nil => exact Or.inl ⟨rfl, by intro q hq; cases hq⟩
  | cons x rest ih =>
      obtain ⟨t, e0⟩ := x
      by_cases hlt : e0 < be
      · have hgo : minByEtaGo b be ((t, e0) :: rest) = minByEtaGo t e0 rest := by
          simp [minByEtaGo, hlt]
        rcases ih t e0 with ⟨heq, hall⟩ | ⟨l1, l2, e, hsplit, hlt2, hbefore, hafter⟩
        · refine Or.inr ⟨[], rest, e0, ?_, hlt, ?_, ?_⟩
          · rw [hgo, heq]; rfl
          · intro q hq; cases hq
          · exact hall
        · refine Or.inr ⟨(t, e0) :: l1, l2, e, ?_, lt_trans hlt2 hlt, ?_, hafter⟩
          · rw [hgo, List.cons_append, ← hsplit]
          · intro q hq
            rcases List.mem_cons.mp hq with h1 | h1
            · rw [h1]; exact hlt2
            · exact hbefore q h1
      · have hgo : minByEtaGo b be ((t, e0) :: rest) = minByEtaGo b be rest := by
          simp [minByEtaGo, hlt]
        rcases ih b be with ⟨heq, hall⟩ | ⟨l1, l2, e, hsplit, hlt2, hbefore, hafter⟩
        · refine Or.inl ⟨by rw [hgo, heq], ?_⟩
          intro q hq
          rcases List.mem_cons.mp hq with h1 | h1
          · rw [h1]; exact not_lt.mp hlt
          · exact hall q h1
        · refine Or.inr ⟨(t, e0) :: l1, l2, e, ?_, hlt2, ?_, hafter⟩
          · rw [hgo, List.cons_append, ← hsplit]
          · intro q hq
            rcases List.mem_cons.mp hq with h1 | h1
            · rw [h1]
              exact lt_of_lt_of_le hlt2 (not_lt.mp hlt)
            · exact hbefore q h1

/-- C8 counterexample: with technicians listed as ids 7 then 3 and equal
ETAs, the selection returns 7 (first in list order), not the lowest id 3. -/
theorem C8_counterexample :
    assign_order_best_tech [7, 3] (fun _ => some 100) = some 7 ∧
    assign_order_best_tech [7, 3] (fun _ => some 100) ≠ some 3 := by
  constructor
  · rfl
  · decide

/-- C8 (amended): assign_jobs assigns an order (and likewise an individual
job) to the technician with the earliest ETA, breaking ties by the earliest
position in the technicians list — the first candidate attaining the
minimal ETA — which equals the lowest technician id only when the list is
sorted ascending by id: the chosen technician's candidate entry splits the
candidate list so that every earlier candidate has a strictly larger ETA
and every later candidate an ETA at least as large. -/
theorem C8_first_min (techIds : List Int) (eta : Int → Option Int) (t : Int)
    (h : assign_order_best_tech techIds eta = some t) :
    ∃ l1 l2 e, candidateEtas techIds eta = l1 ++ (t, e) :: l2 ∧
      (∀ q ∈ l1, e < q.2) ∧ (∀ q ∈ l2, e ≤ q.2) := by
  unfold assign_order_best_tech at h
  cases hc : candidateEtas techIds eta with
  | nil => rw [hc] at h; simp [minByEta] at h
  | cons x rest =>
      obtain ⟨t0, e0⟩ := x
      rw [hc] at h
      simp only [minByEta, Option.some_inj] at h
      rcases minByEtaGo_spec rest t0 e0 with ⟨heq, hall⟩ |
        ⟨l1, l2, e, hsplit, helt, hbefore, hafter⟩
      · refine ⟨[], rest, e0, ?_, ?_, hall⟩
        · rw [List.nil_append, ← h, heq]
        · intro q hq; cases hq
      · refine ⟨(t0, e0) :: l1, l2, e, ?_, ?_, hafter⟩
        · rw [List.cons_append, ← h, ← hsplit]
        · intro q hq
          rcases List.mem_cons.mp hq with h1 | h1
          · rw [h1]
            exact helt
          · exact hbefore q h1

/-- Witness for C8 at the tied concrete input: 7 is the first candidate
attaining the minimal ETA. -/
theorem C8_first_min_witness :
    ∃ l1 l2 e, candidateEtas [7, 3] (fun _ => some (100 : Int)) = l1 ++ ((7 : Int), e) :: l2 ∧
      (∀ q ∈ l1, e < q.2) ∧ (∀ q ∈ l2, e ≤ q.2) :=
  C8_first_min [7, 3] (fun _ => some 100) 7 (by decide)

/-! ## Claim C2 -/

/-- An item's id is reported unassigned exactly when the assembled assigned
set misses it (the filter of main.py line 494 tests only the id). -/
theorem mem_unassignedOf_iff (p : Payload) (sol : Solution) (it : OptimizationItem)
    (h : it ∈ p.items) :
    it.id ∈ unassignedOf p sol ↔ (assignedIds p sol).contains it.id = false := by
  unfold unassignedOf
  constructor
  · intro hm
    rcases List.mem_map.mp hm with ⟨it2, hit2, heq⟩
    have h2 := List.mem_filter.mp hit2
    rw [← heq]
    simpa using h2.2
  · intro hcont
    refine List.mem_map_of_mem _ (List.mem_filter.mpr ⟨h, ?_⟩)
    show (!((assignedIds p sol).contains it.id)) = true
    rw [hcont]
    rfl

/-- C2: on a non-degenerate request, the assembled response carries
statusOfAssigned and unassignedOf; the status is success exactly when
nothing is unassigned, partial exactly when some but not all items are
unassigned, error exactly when every item is unassigned; and when the
solver returns no assignment the status is error with every input item id
unassigned. -/
theorem C2_status (p : Payload) (sol : Solution) (hi : p.items ≠ []) (ht : p.technicians ≠ []) :
    (optimize_schedule p (some sol)).status = statusOfAssigned p sol ∧
    (optimize_schedule p (some sol)).unassignedItemIds = unassignedOf p sol ∧
    (statusOfAssigned p sol = "success" ↔ unassignedOf p sol = []) ∧
    (statusOfAssigned p sol = "partial" ↔
      ((∃ it ∈ p.items, it.id ∈ unassignedOf p sol) ∧
       (∃ it ∈ p.items, it.id ∉ unassignedOf p sol))) ∧
    (statusOfAssigned p sol = "error" ↔ ∀ it ∈ p.items, it.id ∈ unassignedOf p sol) ∧
    (optimize_schedule p none).status = "error" ∧
    (∀ it ∈ p.items, it.id ∈ (optimize_schedule p none).unassignedItemIds) := by
  have hlen : (unassignedOf p sol).length =
      (p.items.filter (fun it => !((assignedIds p sol).contains it.id))).length := by
    unfold unassignedOf
    rw [List.length_map]
  have hle : (unassignedOf p sol).length ≤ p.items.length := by
    rw [hlen]
    exact List.length_filter_le _ _
  have hempty : unassignedOf p sol = [] ↔
      ∀ it ∈ p.items, (assignedIds p sol).contains it.id = true := by
    unfold unassignedOf
    rw [List.map_eq_nil_iff, List.filter_eq_nil_iff]
    constructor
    · intro hall it hit
      have := hall it hit
      simpa using this
    · intro hall it hit
      rw [Bool.not_eq_true', hall it hit]
      exact fun hx => Bool.noConfusion hx
  have hful : (unassignedOf p sol).length = p.items.length ↔
      ∀ it ∈ p.items, (assignedIds p sol).contains it.id = false := by
    rw [hlen, length_filter_eq_iff]
    constructor
    · intro hall it hit
      have := hall it hit
      simpa using this
    · intro hall it hit
      show (!((assignedIds p sol).contains it.id)) = true
      rw [hall it hit]
      rfl
  have hlt : (unassignedOf p sol).length < p.items.length ↔
      ∃ it ∈ p.items, (assignedIds p sol).contains it.id = true := by
    constructor
    · intro hl
      by_contra hno
      push_neg at hno
      have hf : ∀ it ∈ p.items, (assignedIds p sol).contains it.id = false := by
        intro it hit
        cases hcase : (assignedIds p sol).contains it.id with
        | false => rfl
        | true => exact absurd hcase (hno it hit)
      rw [hful.mpr hf] at hl
      exact lt_irrefl _ hl
    · rintro ⟨it, hit, hcont⟩
      rcases lt_or_eq_of_le hle with h | h
      · exact h
      · have := hful.mp h it hit
        rw [hcont] at this
        cases this
  have hnonempty : unassignedOf p sol ≠ [] →
      ∃ it ∈ p.items, it.id ∈ unassignedOf p sol := by
    intro hne
    by_contra hno
    push_neg at hno
    refine hne (hempty.mpr ?_)
    intro it hit
    cases hcase : (assignedIds p sol).contains it.id with
    | true => rfl
    | false => exact absurd ((mem_unassignedOf_iff p sol it hit).mpr hcase) (hno it hit)
  refine ⟨by simp [optimize_schedule, hi, ht], by simp [optimize_schedule, hi, ht],
    ?_, ?_, ?_, by simp [optimize_schedule, hi, ht], ?_⟩
  · unfold statusOfAssigned
    split_ifs with h1 h2
    · simp [h1]
    · exact iff_of_false (by decide) h1
    · exact iff_of_false (by decide) h1
  · unfold statusOfAssigned
    split_ifs with h1 h2
    · refine iff_of_false (by decide) ?_
      rintro ⟨⟨it, _, hm⟩, _⟩
      rw [h1] at hm
      cases hm
    · refine iff_of_true rfl ⟨hnonempty h1, ?_⟩
      rcases hlt.mp h2 with ⟨it, hit, hcont⟩
      refine ⟨it, hit, ?_⟩
      intro hm
      have := (mem_unassignedOf_iff p sol it hit).mp hm
      rw [hcont] at this
      cases this
    · refine iff_of_false (by decide) ?_
      rintro ⟨_, ⟨it, hit, hnotin⟩⟩
      have hfl : (unassignedOf p sol).length = p.items.length := le_antisymm hle (not_lt.mp h2)
      exact hnotin ((mem_unassignedOf_iff p sol it hit).mpr (hful.mp hfl it hit))
  · unfold statusOfAssigned
    split_ifs with h1 h2
    · refine iff_of_false (by decide) ?_
      intro hall
      rcases List.exists_mem_of_ne_nil p.items hi with ⟨it, hit⟩
      have hm := hall it hit
      rw [h1] at hm
      cases hm
    · refine iff_of_false (by decide) ?_
      intro hall
      rcases hlt.mp h2 with ⟨it, hit, hcont⟩
      have := (mem_unassignedOf_iff p sol it hit).mp (hall it hit)
      rw [hcont] at this
      cases this
    · refine iff_of_true rfl ?_
      intro it hit
      have hfl : (unassignedOf p sol).length = p.items.length := le_antisymm hle (not_lt.mp h2)
      exact (mem_unassignedOf_iff p sol it hit).mpr (hful.mp hfl it hit)
  · intro it hit
    simp only [optimize_schedule, if_neg hi, if_neg ht]
    exact List.mem_map_of_mem _ hit

/-- A one-item one-technician payload and an empty solver route for the C2
witness: the single item is unassigned, so the status is error. -/
def c2p : Payload :=
  { locations := [{ index := 0 }, { index := 1 }],
    technicians := [{ id := 1, startLocationIndex := 0, endLocationIndex := 0,
                      earliestStart := 0, latestEnd := 3600 }],
    items := [{ id := "a", locationIndex := 1, durationSeconds := 60, priority := 1,
                eligibleTechnicianIds := [1] }],
    fixedConstraints := [], travelTimeMatrix := [((0 : Int), [((0 : Int), (0 : Int))])] }

/-- The empty solution used by the C2 witness. -/
def c2sol : Solution := { routes := [{ startTime := 0, stops := [], endTime := 0 }] }

/-- Witness for C2 at the concrete payload. -/
theorem C2_status_witness :
    (optimize_schedule c2p (some c2sol)).status = statusOfAssigned c2p c2sol :=
  (C2_status c2p c2sol (by decide) (by decide)).1

/-! ## Claim C6 -/

theorem fixedStartOf_some (u : SchedUnit) (fs : Int) (h : u.fixed_schedule_time = some fs) :
    fixedStartOf u = fs := by
  unfold fixedStartOf
  rw [h]
  rfl

/-- The invariant the window walk maintains: the cursor stays inside the
day, emitted windows are in-range, non-empty, below the cursor and ordered,
placed units are valid and fit below the cursor, and up to the cursor the
windows cover exactly the time not inside a placed unit. -/
def WinInv (dayStart dayEnd : Int) (st : WinState) : Prop :=
  dayStart ≤ st.cursor ∧ st.cursor ≤ dayEnd ∧
  (∀ w ∈ st.windows, dayStart ≤ w.1 ∧ w.1 < w.2.1 ∧ w.2.1 ≤ st.cursor) ∧
  List.Pairwise (fun a b : Int × Int × Address => a.2.1 ≤ b.1) st.windows ∧
  (∀ u ∈ st.placed, u.fixed_schedule_time.isSome = true ∧ 0 < u.duration ∧
     dayStart ≤ fixedStartOf u ∧ fixedStartOf u + u.duration ≤ st.cursor) ∧
  (∀ tp : Int, dayStart ≤ tp → tp < st.cursor →
     ((∃ w ∈ st.windows, w.1 ≤ tp ∧ tp < w.2.1) ↔
      ∀ u ∈ st.placed, ¬(fixedStartOf u ≤ tp ∧ tp < fixedStartOf u + u.duration)))

theorem winStep_no_fixed (dayEnd : Int) (st : WinState) (u : SchedUnit)
    (hfs : u.fixed_schedule_time = none) : winStep dayEnd st u = st := by
  unfold winStep
  rw [hfs]

theorem winStep_no_loc (dayEnd : Int) (st : WinState) (u : SchedUnit) (fs : Int)
    (hfs : u.fixed_schedule_time = some fs) (hloc : u.location = none) :
    winStep dayEnd st u = st := by
  unfold winStep
  rw [hfs, hloc]

theorem winStep_some_some (dayEnd : Int) (st : WinState) (u : SchedUnit) (fs : Int)
    (floc : Address) (hfs : u.fixed_schedule_time = some fs) (hloc : u.location = some floc) :
    winStep dayEnd st u =
      if u.duration ≤ 0 then st
      else if st.cursor ≤ fs ∧ fs + u.duration ≤ dayEnd then
        { windows := st.windows ++ (if st.cursor < fs then [(st.cursor, fs, st.loc)] else [])
          cursor := fs + u.duration, loc := floc, placed := st.placed ++ [u] }
      else st := by
  unfold winStep
  rw [hfs, hloc]

theorem winStep_inv (dayStart dayEnd : Int) (st : WinState) (u : SchedUnit)
    (hinv : WinInv dayStart dayEnd st) : WinInv dayStart dayEnd (winStep dayEnd st u) := by
  obtain ⟨h1, h2, h3, h4, h5, h6⟩ := hinv
  cases hfs : u.fixed_schedule_time with
  | none =>
      rw [winStep_no_fixed dayEnd st u hfs]
      exact ⟨h1, h2, h3, h4, h5, h6⟩
  | some fs =>
  cases hloc : u.location with
  | none =>
      rw [winStep_no_loc dayEnd st u fs hfs hloc]
      exact ⟨h1, h2, h3, h4, h5, h6⟩
  | some floc =>
  rw [winStep_some_some dayEnd st u fs floc hfs hloc]
  by_cases hdur : u.duration ≤ 0
  · rw [if_pos hdur]
    exact ⟨h1, h2, h3, h4, h5, h6⟩
  rw [if_neg hdur]
  by_cases hcond : st.cursor ≤ fs ∧ fs + u.duration ≤ dayEnd
  swap
  · rw [if_neg hcond]
    exact ⟨h1, h2, h3, h4, h5, h6⟩
  · rw [if_pos hcond]
    obtain ⟨hc1, hc2⟩ := hcond
    have hdur0 : 0 < u.duration := by omega
    unfold WinInv
    dsimp only
    refine ⟨by omega, hc2, ?_, ?_, ?_, ?_⟩
    · intro w hw
      rcases List.mem_append.mp hw with hw | hw
      · obtain ⟨ha, hb, hc⟩ := h3 w hw
        exact ⟨ha, hb, by omega⟩
      · by_cases hg : st.cursor < fs
        · rw [if_pos hg] at hw
          rcases List.mem_singleton.mp hw with rfl
          exact ⟨h1, hg, show fs ≤ fs + u.duration by omega⟩
        · rw [if_neg hg] at hw
          cases hw
    · rw [List.pairwise_append]
      refine ⟨h4, ?_, ?_⟩
      · by_cases hg : st.cursor < fs
        · rw [if_pos hg]
          exact List.pairwise_singleton _ _
        · rw [if_neg hg]
          exact List.Pairwise.nil
      · intro a ha b hb
        have hend := (h3 a ha).2.2
        by_cases hg : st.cursor < fs
        · rw [if_pos hg] at hb
          rcases List.mem_singleton.mp hb with rfl
          exact hend
        · rw [if_neg hg] at hb
          cases hb
    · intro u2 hu2
      rcases List.mem_append.mp hu2 with hu2 | hu2
      · obtain ⟨ha, hb, hc, hd⟩ := h5 u2 hu2
        exact ⟨ha, hb, hc, by omega⟩
      · rcases List.mem_singleton.mp hu2 with rfl
        rw [fixedStartOf_some u2 fs hfs]
        exact ⟨by rw [hfs]; rfl, hdur0, by omega, by omega⟩
    · intro tp htp1 htp2
      by_cases hA : tp < st.cursor
      · have hold := h6 tp htp1 hA
        constructor
        · rintro ⟨w, hw, hcov⟩ u2 hu2
          rcases List.mem_append.mp hu2 with hu2 | hu2
          · rcases List.mem_append.mp hw with hw2 | hw2
            · exact hold.mp ⟨w, hw2, hcov⟩ u2 hu2
            · exfalso
              by_cases hg : st.cursor < fs
              · rw [if_pos hg] at hw2
                rcases List.mem_singleton.mp hw2 with rfl
                exact absurd hcov.1 (by omega)
              · rw [if_neg hg] at hw2
                cases hw2
          · rcases List.mem_singleton.mp hu2 with rfl
            rw [fixedStartOf_some u2 fs hfs]
            intro hbad
            omega
        · intro hforall
          have hrestrict : ∀ u2 ∈ st.placed,
              ¬(fixedStartOf u2 ≤ tp ∧ tp < fixedStartOf u2 + u2.duration) :=
            fun u2 hu2 => hforall u2 (List.mem_append_left _ hu2)
          rcases hold.mpr hrestrict with ⟨w, hw, hcov⟩
          exact ⟨w, List.mem_append_left _ hw, hcov⟩
      · push_neg at hA
        by_cases hB : tp < fs
        · have hg : st.cursor < fs := lt_of_le_of_lt hA hB
          constructor
          · intro _ u2 hu2
            rcases List.mem_append.mp hu2 with hu2 | hu2
            · have hend := (h5 u2 hu2).2.2.2
              intro hbad
              omega
            · rcases List.mem_singleton.mp hu2 with rfl
              rw [fixedStartOf_some u2 fs hfs]
              intro hbad
              omega
          · intro _
            refine ⟨(st.cursor, fs, st.loc), List.mem_append_right _ ?_, hA, hB⟩
            rw [if_pos hg]
            exact List.mem_singleton.mpr rfl
        · push_neg at hB
          constructor
          · rintro ⟨w, hw, hcov⟩
            exfalso
            rcases List.mem_append.mp hw with hw2 | hw2
            · have hend := (h3 w hw2).2.2
              omega
            · by_cases hg : st.cursor < fs
              · rw [if_pos hg] at hw2
                rcases List.mem_singleton.mp hw2 with rfl
                exact absurd hcov.2 (not_lt.mpr hB)
              · rw [if_neg hg] at hw2
                cases hw2
          · intro hforall
            exfalso
            have hcontra := hforall u (List.mem_append_right _ (List.mem_singleton.mpr rfl))
            rw [fixedStartOf_some u fs hfs] at hcontra
            exact hcontra ⟨hB, htp2⟩

theorem foldl_winStep_inv (dayStart dayEnd : Int) (l : List SchedUnit) (st : WinState)
    (hinv : WinInv dayStart dayEnd st) :
    WinInv dayStart dayEnd (l.foldl (winStep dayEnd) st) := by
  induction l generalizing st with
  | nil => exact hinv
  | cons x xs ih => exact ih _ (winStep_inv dayStart dayEnd st x hinv)

theorem windowsFold_inv (units : List SchedUnit) (dayStart dayEnd : Int) (startLoc : Address)
    (hday : dayStart ≤ dayEnd) :
    WinInv dayStart dayEnd (windowsFold units dayStart dayEnd startLoc) := by
  unfold windowsFold
  refine foldl_winStep_inv dayStart dayEnd _ _ ?_
  refine ⟨le_refl _, hday, ?_, List.Pairwise.nil, ?_, ?_⟩
  · intro w hw; cases hw
  · intro u hu; cases hu
  · intro tp htp1 htp2
    dsimp only at htp2
    exact absurd htp1 (by omega)

/-- C6: for dayStart < dayEnd the returned windows are inside the day with
positive length, pairwise ordered and non-overlapping (each window ends
before the next begins), and over the whole day they cover exactly the
instants not occupied by a validly placed fixed unit; a fixed unit that
conflicts with the running cursor or would end after dayEnd leaves the walk
state — cursor, location, windows, placed units — completely unchanged. -/
theorem C6_window_calculator (units : List SchedUnit) (dayStart dayEnd : Int)
    (startLoc : Address) (hday : dayStart < dayEnd) :
    (∀ w ∈ calculate_daily_available_windows units dayStart dayEnd startLoc,
        dayStart ≤ w.1 ∧ w.1 < w.2.1 ∧ w.2.1 ≤ dayEnd) ∧
    List.Pairwise (fun a b : Int × Int × Address => a.2.1 ≤ b.1)
      (calculate_daily_available_windows units dayStart dayEnd startLoc) ∧
    (∀ tp : Int, dayStart ≤ tp → tp < dayEnd →
       ((∃ w ∈ calculate_daily_available_windows units dayStart dayEnd startLoc,
           w.1 ≤ tp ∧ tp < w.2.1) ↔
        ∀ u ∈ placedUnits units dayStart dayEnd startLoc,
          ¬(fixedStartOf u ≤ tp ∧ tp < fixedStartOf u + u.duration))) ∧
    (∀ (st : WinState) (u : SchedUnit) (fs : Int) (floc : Address),
        u.fixed_schedule_time = some fs → u.location = some floc → 0 < u.duration →
        ¬(st.cursor ≤ fs ∧ fs + u.duration ≤ dayEnd) → winStep dayEnd st u = st) := by
  obtain ⟨h1, h2, h3, h4, h5, h6⟩ :=
    windowsFold_inv units dayStart dayEnd startLoc (le_of_lt hday)
  unfold calculate_daily_available_windows placedUnits
  refine ⟨?_, ?_, ?_, ?_⟩
  · intro w hw
    rcases List.mem_append.mp hw with hw | hw
    · obtain ⟨ha, hb, hc⟩ := h3 w hw
      exact ⟨ha, hb, le_trans hc h2⟩
    · by_cases hg : (windowsFold units dayStart dayEnd startLoc).cursor < dayEnd
      · rw [if_pos hg] at hw
        rcases List.mem_singleton.mp hw with rfl
        exact ⟨h1, hg, le_refl _⟩
      · rw [if_neg hg] at hw
        cases hw
  · rw [List.pairwise_append]
    refine ⟨h4, ?_, ?_⟩
    · by_cases hg : (windowsFold units dayStart dayEnd startLoc).cursor < dayEnd
      · rw [if_pos hg]
        exact List.pairwise_singleton _ _
      · rw [if_neg hg]
        exact List.Pairwise.nil
    · intro a ha b hb
      have hend := (h3 a ha).2.2
      by_cases hg : (windowsFold units dayStart dayEnd startLoc).cursor < dayEnd
      · rw [if_pos hg] at hb
        rcases List.mem_singleton.mp hb with rfl
        exact hend
      · rw [if_neg hg] at hb
        cases hb
  · intro tp htp1 htp2
    by_cases hA : tp < (windowsFold units dayStart dayEnd startLoc).cursor
    · have hold := h6 tp htp1 hA
      constructor
      · rintro ⟨w, hw, hcov⟩
        rcases List.mem_append.mp hw with hw2 | hw2
        · exact hold.mp ⟨w, hw2, hcov⟩
        · exfalso
          by_cases hg : (windowsFold units dayStart dayEnd startLoc).cursor < dayEnd
          · rw [if_pos hg] at hw2
            rcases List.mem_singleton.mp hw2 with rfl
            exact absurd hcov.1 (by omega)
          · rw [if_neg hg] at hw2
            cases hw2
      · intro hforall
        rcases hold.mpr hforall with ⟨w, hw, hcov⟩
        exact ⟨w, List.mem_append_left _ hw, hcov⟩
    · push_neg at hA
      constructor
      · intro _ u2 hu2
        have hend := (h5 u2 hu2).2.2.2
        intro hbad
        omega
      · intro _
        refine ⟨((windowsFold units dayStart dayEnd startLoc).cursor, dayEnd,
            (windowsFold units dayStart dayEnd startLoc).loc),
          List.mem_append_right _ ?_, hA, htp2⟩
        rw [if_pos (lt_of_le_of_lt hA htp2)]
        exact List.mem_singleton.mpr rfl
  · intro st u fs floc hfs hloc hdur hcond
    rw [winStep_some_some dayEnd st u fs floc hfs hloc]
    rw [if_neg (by omega), if_neg hcond]

/-- A valid fixed unit for the C6 witness: 9:00 plus one hour inside a
0..36000 day. -/
def c6u : SchedUnit :=
  { uid := "u1", location := some { lat := 5, lng := 5 }, duration := 3600,
    priority := 1, fixed_schedule_time := some 7200 }

/-- Witness for C6: the windows computed around the concrete fixed unit are
in-range, positive and ordered. -/
theorem C6_window_calculator_witness :
    calculate_daily_available_windows [c6u] 0 36000 (Address.mk 0 0) =
      [((0 : Int), (7200 : Int), Address.mk 0 0),
       ((10800 : Int), (36000 : Int), { lat := 5, lng := 5 })] ∧
    (∀ w ∈ calculate_daily_available_windows [c6u] 0 36000 (Address.mk 0 0),
        (0 : Int) ≤ w.1 ∧ w.1 < w.2.1 ∧ w.2.1 ≤ 36000) ∧
    List.Pairwise (fun a b : Int × Int × Address => a.2.1 ≤ b.1)
      (calculate_daily_available_windows [c6u] 0 36000 (Address.mk 0 0)) :=
  ⟨by decide,
   (C6_window_calculator [c6u] 0 36000 (Address.mk 0 0) (by decide)).1,
   (C6_window_calculator [c6u] 0 36000 (Address.mk 0 0) (by decide)).2.1⟩

/-! ## Claim C7 -/

/-- C7: on a technician-day, with the greedy fit producing the day's
dynamic units dynToday and the reduced pending pool remaining, the fit has
removed exactly the scheduled ids from the pool; when the optimizer's
elapsed time fits the day's available duration the optimizer output is
committed and the pool stays reduced (only re-sorted); when it exceeds the
duration only the day's fixed units are committed and the re-sorted pool is
a permutation of the reduced pool plus every dynamic unit attempted that
day, sorted ascending by priority. -/
theorem C7_daily_commit (fixedToday pending dynToday remaining : List SchedUnit)
    (ws : List (Int × Int × Address)) (res : DayOptResult) (totalDuration : Int)
    (hfit : fit_dynamic_units_into_windows pending ws = (dynToday, remaining)) :
    remaining = pending.filter (fun u => !((dynToday.map (fun v => v.uid)).contains u.uid)) ∧
    (res.total_time ≤ totalDuration →
      technicianDay fixedToday pending ws res totalDuration =
        (res.optimized_units, remaining.insertionSort prioLE)) ∧
    (totalDuration < res.total_time →
      (∀ u ∈ fixedToday, (dynToday.map (fun v => v.uid)).contains u.uid = false) →
      (technicianDay fixedToday pending ws res totalDuration).1 = fixedToday ∧
      List.Perm (technicianDay fixedToday pending ws res totalDuration).2
        (remaining ++ dynToday) ∧
      List.Sorted prioLE (technicianDay fixedToday pending ws res totalDuration).2) := by
  have h1 : (fit_dynamic_units_into_windows pending ws).1 = dynToday := by rw [hfit]
  have h2 : (fit_dynamic_units_into_windows pending ws).2 = remaining := by rw [hfit]
  refine ⟨?_, ?_, ?_⟩
  · unfold fit_dynamic_units_into_windows at h1 h2
    dsimp only at h1 h2
    rw [← h2]
    simp only [h1]
  · intro htime
    unfold technicianDay
    rw [h1, h2]
    unfold finalizeDay
    rw [if_pos htime]
  · intro htime hdisj
    have hfilter : (fixedToday ++ dynToday).filter
        (fun u => (dynToday.map (fun v => v.uid)).contains u.uid) = dynToday := by
      rw [List.filter_append]
      have hfa : fixedToday.filter
          (fun u => (dynToday.map (fun v => v.uid)).contains u.uid) = [] := by
        rw [List.filter_eq_nil_iff]
        intro u hu
        rw [hdisj u hu]
        exact fun hx => Bool.noConfusion hx
      have hfb : dynToday.filter
          (fun u => (dynToday.map (fun v => v.uid)).contains u.uid) = dynToday := by
        rw [List.filter_eq_self]
        intro u hu
        exact List.elem_iff.mpr (List.mem_map_of_mem _ hu)
      rw [hfa, hfb, List.nil_append]
    have hout : finalizeDay fixedToday dynToday remaining res totalDuration =
        (fixedToday, remaining ++ dynToday) := by
      unfold finalizeDay
      rw [if_neg (by omega)]
      rw [hfilter]
    unfold technicianDay
    rw [h1, h2, hout]
    exact ⟨rfl, List.perm_insertionSort prioLE _, List.sorted_insertionSort prioLE _⟩

/-- Concrete units for the C7 witness. -/
def c7fixed : SchedUnit :=
  { uid := "f1", location := some { lat := 0, lng := 0 }, duration := 600,
    priority := 2, fixed_schedule_time := some 1000 }

/-- Concrete dynamic unit for the C7 witness. -/
def c7dyn : SchedUnit :=
  { uid := "d1", location := some { lat := 1, lng := 1 }, duration := 600,
    priority := 1, fixed_schedule_time := none }

/-- Witness for C7: attempted dynamic unit returned to the pool when the
optimized day overruns the available duration. -/
theorem C7_daily_commit_witness :
    (technicianDay [c7fixed] [c7dyn] [((0 : Int), (10000 : Int), Address.mk 0 0)]
        { optimized_units := [c7fixed, c7dyn], total_time := 5000 } 4000).1 = [c7fixed] ∧
    List.Perm (technicianDay [c7fixed] [c7dyn] [((0 : Int), (10000 : Int), Address.mk 0 0)]
        { optimized_units := [c7fixed, c7dyn], total_time := 5000 } 4000).2
      ([] ++ [c7dyn]) :=
  ⟨((C7_daily_commit [c7fixed] [c7dyn] [c7dyn] []
      [((0 : Int), (10000 : Int), Address.mk 0 0)]
      { optimized_units := [c7fixed, c7dyn], total_time := 5000 } 4000
      (by decide)).2.2 (by decide) (by decide)).1,
   ((C7_daily_commit [c7fixed] [c7dyn] [c7dyn] []
      [((0 : Int), (10000 : Int), Address.mk 0 0)]
      { optimized_units := [c7fixed, c7dyn], total_time := 5000 } 4000
      (by decide)).2.2 (by decide) (by decide)).2.1⟩

/-! ## Claim C1 -/

theorem getLast?_mem_list {α : Type} (l : List α) (a : α) (h : l.getLast? = some a) : a ∈ l := by
  rcases List.mem_getLast?_eq_getLast (show a ∈ l.getLast? from h) with ⟨hne, heq⟩
  rw [heq]
  exact List.getLast_mem hne

/-- Along a zero-slack chain, the cumul of the stop after the prefix pre
equals the cumul of the last element of pre (or the start cumul) plus the
transit of the traversed arc. -/
theorem routeChain_at (p : Payload) (pre : List (Int × Int)) :
    ∀ (pn pt n tm : Int) (post : List (Int × Int)) (en et : Int),
      routeChain p pn pt (pre ++ (n, tm) :: post) en et →
      tm = (((pre.getLast?).map Prod.snd).getD pt) +
        transitPS p (((pre.getLast?).map Prod.fst).getD pn) n := by
  induction pre with
  | nil =>
      intro pn pt n tm post en et h
      rw [List.nil_append] at h
      exact h.1
  | cons q pre2 ih =>
      intro pn pt n tm post en et h
      obtain ⟨nq, tq⟩ := q
      rw [List.cons_append] at h
      obtain ⟨h1, h2⟩ := h
      have hrec := ih nq tq n tm post en et h2
      cases hpre : pre2 with
      | nil =>
          rw [hpre] at hrec
          simpa using hrec
      | cons b l =>
          rw [hpre] at hrec
          rw [List.getLast?_cons_cons]
          obtain ⟨x, hx⟩ := Option.isSome_iff_exists.mp
            (show ((b :: l).getLast?).isSome = true by
              rw [List.getLast?_isSome]
              exact List.cons_ne_nil b l)
          rw [hx] at hrec ⊢
          simpa using hrec

/-- Along a zero-slack chain with non-negative transits, the initial cumul
is below the end cumul. -/
theorem routeChain_pt_le_end (p : Payload) (hnn : ∀ a b : Int, 0 ≤ transitPS p a b) :
    ∀ (stops : List (Int × Int)) (pn pt en et : Int),
      routeChain p pn pt stops en et → pt ≤ et := by
  intro stops
  induction stops with
  | nil =>
      intro pn pt en et h
      have := hnn pn en
      unfold routeChain at h
      omega
  | cons q rest ih =>
      intro pn pt en et h
      obtain ⟨n, t⟩ := q
      obtain ⟨h1, h2⟩ := h
      have := hnn pn n
      have := ih n t en et h2
      omega

/-- Along a zero-slack chain with non-negative transits, every stop cumul
is below the end cumul. -/
theorem routeChain_stop_le_end (p : Payload) (hnn : ∀ a b : Int, 0 ≤ transitPS p a b) :
    ∀ (stops : List (Int × Int)) (pn pt en et : Int) (q : Int × Int),
      routeChain p pn pt stops en et → q ∈ stops → q.2 ≤ et := by
  intro stops
  induction stops with
  | nil => intro pn pt en et q _ hq; cases hq
  | cons x rest ih =>
      intro pn pt en et q h hq
      obtain ⟨n, t⟩ := x
      obtain ⟨h1, h2⟩ := h
      rcases List.mem_cons.mp hq with h3 | h3
      · rw [h3]
        exact routeChain_pt_le_end p hnn rest n t en et h2
      · exact ih n t en et q h2 h3

/-- The first component of the relative technician window is the clamped
relative earliest start, whether or not the end was clamped up. -/
theorem techWindowRel_fst (p : Payload) (t : OptimizationTechnician) :
    (techWindowRel p t).1 = max 0 (t.earliestStart - planningEpoch p) := by
  simp only [techWindowRel]
  split_ifs <;> rfl

/-- C1 (amended): in the multi-vehicle optimizer every feasible solver
output that schedules a fixed-constrained item whose fixed time lies at or
after the assigned technician's earliest start gives it a solved start
exactly equal to the fixed time, and the reconstructed physical arrival is
at most that start provided the incoming hop's travel and the predecessor's
service time are below the 999999 sentinel; in the single-technician daily
optimizer a scheduled fixed unit's solved start is only constrained to the
window from the fixed time to the fixed time plus 60 seconds (the one
minute buffer of routing.py lines 203-208), so it need not equal the fixed
time exactly. -/
theorem C1_fixed_time_amended :
    (∀ (p : Payload) (t : OptimizationTechnician) (r : Route)
        (c : OptimizationFixedConstraint) (it : OptimizationItem)
        (pre post : List (Int × Int)) (n tm : Int),
        t ∈ p.technicians → FeasibleRoute p t r → c ∈ p.fixedConstraints →
        findItemLast p c.itemId = some it → r.stops = pre ++ (n, tm) :: post →
        n = it.locationIndex → t.earliestStart ≤ c.fixedTime → c.fixedTime ≤ t.latestEnd →
        travel_time_callback p (segmentPrevNode t pre) n < 999999 →
        0 ≤ service_time_callback p (segmentPrevNode t pre) →
        service_time_callback p (segmentPrevNode t pre) < 999999 →
        tm + planningEpoch p = c.fixedTime ∧ mvArrival p t pre n ≤ tm) ∧
    (∀ (hav : Address → Address → Int) (startLoc : Address) (units : List SchedUnit)
        (dayStart : Int) (r : RtRoute) (q : Nat × Int) (u : SchedUnit) (f : Int),
        RtFeasible hav startLoc units dayStart r → q ∈ r.stops → q.1 ≠ 0 →
        units.get? (q.1 - 1) = some u → u.fixed_schedule_time = some f → dayStart ≤ f →
        f ≤ dayStart + q.2 ∧ dayStart + q.2 ≤ f + 60) := by
  constructor
  · intro p t r c it pre post n tm htech hfeas hc hitem hstops hn hwin1 hwin2 htr hsv0 hsv1
    obtain ⟨f1, f2, f3, f4, f5, f6, f7, f8, f9, f10, f11⟩ := hfeas
    have hep : planningEpoch p ≤ t.earliestStart := planningEpoch_le p t htech
    have hmem : (n, tm) ∈ r.stops := by
      rw [hstops]
      exact List.mem_append_right _ (List.mem_cons_self _ _)
    have hpin : tm = fixedRel p c := f11 c hc it hitem (n, tm) hmem hn
    have hrel : fixedRel p c = c.fixedTime - planningEpoch p := by
      unfold fixedRel
      exact max_eq_right (by omega)
    constructor
    · omega
    · rw [hstops] at f10
      have hat := routeChain_at p pre t.startLocationIndex r.startTime n tm post
        t.endLocationIndex r.endTime f10
      have htransit : transitPS p (segmentPrevNode t pre) n =
          travel_time_callback p (segmentPrevNode t pre) n +
          service_time_callback p (segmentPrevNode t pre) := by
        unfold transitPS
        rw [if_neg (by omega)]
      cases hgl : pre.getLast? with
      | none =>
          have hpn : segmentPrevNode t pre = t.startLocationIndex := by
            unfold segmentPrevNode
            rw [hgl]
          have hsd : segmentDeparture p t pre = max 0 (t.earliestStart - planningEpoch p) := by
            unfold segmentDeparture
            rw [hgl]
          rw [hgl] at hat
          simp only [Option.map_none', Option.getD_none] at hat
          have hstart : max 0 (t.earliestStart - planningEpoch p) ≤ r.startTime := by
            have := f1
            rw [techWindowRel_fst] at this
            exact this
          unfold mvArrival
          rw [hsd, hpn]
          rw [hpn] at htransit htr hsv0 hsv1
          generalize hgen : max 0 (t.earliestStart - planningEpoch p) = s at hstart ⊢
          omega
      | some qq =>
          have hpn : segmentPrevNode t pre = qq.1 := by
            unfold segmentPrevNode
            rw [hgl]
          have hsd : segmentDeparture p t pre = qq.2 + service_time_callback p qq.1 := by
            unfold segmentDeparture
            rw [hgl]
          rw [hgl] at hat
          simp only [Option.map_some', Option.getD_some] at hat
          unfold mvArrival
          rw [hsd, hpn]
          rw [hpn] at htransit htr hsv0 hsv1
          omega
  · intro hav startLoc units dayStart r q u f hfeas hq hq0 hu hf hday
    obtain ⟨g1, g2, g3, g4, g5, g6, g7⟩ := hfeas
    have hw := g7 q hq hq0 u hu f hf
    have hrel : rtFixedRel dayStart f = f - dayStart := by
      unfold rtFixedRel
      exact max_eq_right (by omega)
    omega

/-- Single dynamic unit before the fixed one in the C1 counterexample's
single-technician instance. -/
def c1uB : SchedUnit :=
  { uid := "B", location := some { lat := 0, lng := 0 }, duration := 700,
    priority := 1, fixed_schedule_time := none }

/-- The fixed unit of the C1 counterexample, pinned at relative 1880. -/
def c1uU : SchedUnit :=
  { uid := "U", location := some { lat := 0, lng := 0 }, duration := 600,
    priority := 1, fixed_schedule_time := some 1880 }

/-- The feasible single-technician route of the C1 counterexample: the
fixed unit's cumul is 1900, inside its 60-second buffer window but not
equal to the fixed time 1880. -/
def c1rt : RtRoute := { startTime := 0, stops := [(1, 1000), (2, 1900)], endTime := 2200 }

/-- Multi-vehicle payload of the C1 counterexample: the edge into the fixed
item's location is missing from the travel matrix, so the combined transit
saturates at 999999 while the reconstruction adds travel and service
separately, pushing the reported arrival past the pinned start. -/
def c1p : Payload :=
  { locations := [{ index := 0 }, { index := 1 }, { index := 2 }],
    technicians := [{ id := 1, startLocationIndex := 0, endLocationIndex := 0,
                      earliestStart := 0, latestEnd := 2000000 }],
    items := [{ id := "b", locationIndex := 1, durationSeconds := 600, priority := 1,
                eligibleTechnicianIds := [1] },
              { id := "a", locationIndex := 2, durationSeconds := 100, priority := 1,
                eligibleTechnicianIds := [1] }],
    fixedConstraints := [{ itemId := "a", fixedTime := 1000299 }],
    travelTimeMatrix := [((0 : Int), [((1 : Int), (300 : Int))]),
                         ((2 : Int), [((0 : Int), (10 : Int))])] }

/-- The technician of the C1 counterexample payload. -/
def c1tech : OptimizationTechnician :=
  { id := 1, startLocationIndex := 0, endLocationIndex := 0,
    earliestStart := 0, latestEnd := 2000000 }

/-- The feasible multi-vehicle route of the C1 counterexample. -/
def c1route : Route := { startTime := 0, stops := [(1, 300), (2, 1000299)], endTime := 1000409 }

/-- C1 counterexample: (left) the single-technician optimizer admits a
feasible output whose solved start for the fixed unit, 1900 relative
seconds, differs from the fixed time 1880 — the 60-second window makes
exact pinning false; (right) the multi-vehicle optimizer admits a feasible
output scheduling a fixed item whose fixed time lies inside the
technician's window while the reconstructed arrival 1000899 exceeds the
solved start 1000299, so arrival ≤ start also fails as stated. -/
theorem C1_counterexample :
    (RtFeasible (fun _ _ => 0) (Address.mk 0 0) [c1uB, c1uU] 0 c1rt ∧
     ((2 : Nat), (1900 : Int)) ∈ c1rt.stops ∧
     c1uU.fixed_schedule_time = some 1880 ∧
     (0 : Int) + 1900 ≠ (0 : Int) + 1880) ∧
    (FeasibleRoute c1p c1tech c1route ∧
     { itemId := "a", fixedTime := 1000299 } ∈ c1p.fixedConstraints ∧
     c1tech.earliestStart ≤ (1000299 : Int) ∧ (1000299 : Int) ≤ c1tech.latestEnd ∧
     ((2 : Int), (1000299 : Int)) ∈ c1route.stops ∧
     findItemLast c1p "a" = some { id := "a", locationIndex := 2, durationSeconds := 100,
                                   priority := 1, eligibleTechnicianIds := [1] } ∧
     mvArrival c1p c1tech [((1 : Int), (300 : Int))] 2 = 1000899 ∧
     ¬(mvArrival c1p c1tech [((1 : Int), (300 : Int))] 2 ≤ 1000299)) := by
  constructor
  · exact ⟨by decide, by decide, by decide, by decide⟩
  · exact ⟨by decide, by decide, by decide, by decide, by decide, by decide, by decide, by decide⟩

/-- The payload of the C1 witness: one item fixed at 2000 within the
technician's 1000..5000 window. -/
def c1wp : Payload :=
  { locations := [{ index := 0 }, { index := 1 }],
    technicians := [{ id := 1, startLocationIndex := 0, endLocationIndex := 0,
                      earliestStart := 1000, latestEnd := 5000 }],
    items := [{ id := "a", locationIndex := 1, durationSeconds := 100, priority := 1,
                eligibleTechnicianIds := [1] }],
    fixedConstraints := [{ itemId := "a", fixedTime := 2000 }],
    travelTimeMatrix := [((0 : Int), [((1 : Int), (50 : Int))]),
                         ((1 : Int), [((0 : Int), (50 : Int))])] }

/-- The technician of the C1 witness payload. -/
def c1wt : OptimizationTechnician :=
  { id := 1, startLocationIndex := 0, endLocationIndex := 0,
    earliestStart := 1000, latestEnd := 5000 }

/-- The single fixed unit of the C1 witness for the single-technician part. -/
def c1wu : SchedUnit :=
  { uid := "U", location := some { lat := 0, lng := 0 }, duration := 600,
    priority := 1, fixed_schedule_time := some 1000 }

/-- Witness for C1 at concrete feasible routes of both optimizers. -/
theorem C1_fixed_time_amended_witness :
    ((1000 : Int) + planningEpoch c1wp = 2000 ∧
      mvArrival c1wp c1wt [] 1 ≤ (1000 : Int)) ∧
    ((1000 : Int) ≤ (0 : Int) + 1000 ∧ (0 : Int) + 1000 ≤ (1000 : Int) + 60) :=
  ⟨C1_fixed_time_amended.1 c1wp c1wt
      { startTime := 950, stops := [(1, 1000)], endTime := 1150 }
      { itemId := "a", fixedTime := 2000 }
      { id := "a", locationIndex := 1, durationSeconds := 100, priority := 1,
        eligibleTechnicianIds := [1] }
      [] [] 1 1000 (by decide) (by decide) (by decide) (by decide) (by decide) (by decide)
      (by decide) (by decide) (by decide) (by decide) (by decide),
   C1_fixed_time_amended.2 (fun _ _ => 0) (Address.mk 0 0) [c1wu] 0
      { startTime := 100, stops := [(1, 1000)], endTime := 1300 }
      ((1 : Nat), (1000 : Int)) c1wu 1000 (by decide) (by decide) (by decide) (by decide)
      (by decide) (by decide)⟩

/-! ## Claim C3 -/

theorem lookupLoc_index (locs : List OptimizationLocation) (n : Int) (l : OptimizationLocation)
    (h : lookupLoc locs n = some l) : l.index = n := by
  unfold lookupLoc at h
  simpa using List.find?_some h

theorem find_item_spec (p : Payload) (n : Int) (itF : OptimizationItem)
    (h : find_item_by_location p n = some itF) : itF ∈ p.items ∧ itF.locationIndex = n := by
  unfold find_item_by_location at h
  exact ⟨List.mem_of_find?_eq_some h, by simpa using List.find?_some h⟩

theorem travel_eq_getD (p : Payload) (a b : Int) (fl tl : OptimizationLocation)
    (ha : lookupLoc p.locations a = some fl) (hb : lookupLoc p.locations b = some tl) :
    travel_time_callback p a b = (matrixLookup p.travelTimeMatrix fl.index tl.index).getD 999999 := by
  unfold travel_time_callback
  rw [ha, hb]

theorem travel_eq_none_left (p : Payload) (a b : Int) (ha : lookupLoc p.locations a = none) :
    travel_time_callback p a b = 999999 := by
  unfold travel_time_callback
  rw [ha]

theorem travel_eq_none_right (p : Payload) (a b : Int) (fl : OptimizationLocation)
    (ha : lookupLoc p.locations a = some fl) (hb : lookupLoc p.locations b = none) :
    travel_time_callback p a b = 999999 := by
  unfold travel_time_callback
  rw [ha, hb]

/-- A missing matrix entry yields the sentinel cost. -/
theorem travel_missing (p : Payload) (f t : Int)
    (h : matrixLookup p.travelTimeMatrix f t = none) :
    travel_time_callback p f t = 999999 := by
  cases hf : lookupLoc p.locations f with
  | none => exact travel_eq_none_left p f t hf
  | some fl =>
    cases ht : lookupLoc p.locations t with
    | none => exact travel_eq_none_right p f t fl hf ht
    | some tl =>
        rw [travel_eq_getD p f t fl tl hf ht,
          lookupLoc_index _ _ _ hf, lookupLoc_index _ _ _ ht, h]
        rfl

theorem matrixLookup_none_into (m : List (Int × List (Int × Int))) (loc : Int)
    (hmiss : ∀ row ∈ m, row.2.find? (fun q => q.1 == loc) = none) (f : Int) :
    matrixLookup m f loc = none := by
  unfold matrixLookup
  cases hrow : m.find? (fun row => row.1 == f) with
  | none => rfl
  | some row =>
      rw [Option.some_bind]
      rw [hmiss row (List.mem_of_find?_eq_some hrow)]
      rfl

/-- When no row of the matrix has an entry into loc, travel into loc is the
sentinel from everywhere. -/
theorem travel_into_missing (p : Payload) (loc : Int)
    (hmiss : ∀ row ∈ p.travelTimeMatrix, row.2.find? (fun q => q.1 == loc) = none) (f : Int) :
    travel_time_callback p f loc = 999999 :=
  travel_missing p f loc (matrixLookup_none_into _ _ hmiss f)

theorem transitPS_of_travel_sentinel (p : Payload) (a b : Int)
    (h : travel_time_callback p a b = 999999) : transitPS p a b = 999999 := by
  simp only [transitPS]
  rw [h]
  rw [if_pos (Or.inl (le_refl _))]

theorem matrixLookup_mem (m : List (Int × List (Int × Int))) (f t v : Int)
    (h : matrixLookup m f t = some v) : ∃ row ∈ m, ∃ q ∈ row.2, q.2 = v := by
  unfold matrixLookup at h
  cases hrow : m.find? (fun row => row.1 == f) with
  | none => rw [hrow] at h; cases h
  | some row =>
      rw [hrow, Option.some_bind] at h
      cases hq : row.2.find? (fun q => q.1 == t) with
      | none => rw [hq] at h; cases h
      | some q =>
          rw [hq] at h
          exact ⟨row, List.mem_of_find?_eq_some hrow, q, List.mem_of_find?_eq_some hq,
            by simpa using h⟩

theorem travel_nonneg (p : Payload)
    (hmat : ∀ row ∈ p.travelTimeMatrix, ∀ q ∈ row.2, 0 ≤ q.2) (a b : Int) :
    0 ≤ travel_time_callback p a b := by
  cases ha : lookupLoc p.locations a with
  | none => rw [travel_eq_none_left p a b ha]; norm_num
  | some fl =>
    cases hb : lookupLoc p.locations b with
    | none => rw [travel_eq_none_right p a b fl ha hb]; norm_num
    | some tl =>
        rw [travel_eq_getD p a b fl tl ha hb]
        cases hm : matrixLookup p.travelTimeMatrix fl.index tl.index with
        | none => rw [Option.getD_none]; norm_num
        | some v =>
            rw [Option.getD_some]
            rcases matrixLookup_mem _ _ _ _ hm with ⟨row, hrow, q, hq, hv⟩
            rw [← hv]
            exact hmat row hrow q hq

theorem service_nonneg (p : Payload)
    (hdur : ∀ it ∈ p.items, 0 ≤ it.durationSeconds) (a : Int) :
    0 ≤ service_time_callback p a := by
  unfold service_time_callback
  cases hf : p.items.find? (fun it => it.locationIndex == a) with
  | none => exact le_refl 0
  | some it => exact hdur it (List.mem_of_find?_eq_some hf)

theorem transitPS_nonneg (p : Payload)
    (hmat : ∀ row ∈ p.travelTimeMatrix, ∀ q ∈ row.2, 0 ≤ q.2)
    (hdur : ∀ it ∈ p.items, 0 ≤ it.durationSeconds) (a b : Int) :
    0 ≤ transitPS p a b := by
  have h1 := travel_nonneg p hmat a b
  have h2 := service_nonneg p hdur a
  simp only [transitPS]
  split_ifs with h
  · norm_num
  · omega

/-- Ids reported assigned come from the accumulator or from some route's
reported item ids. -/
theorem assignedIdsFold_mem (p : Payload) :
    ∀ (lst : List (OptimizationTechnician × Route)) (acc : List String) (x : String),
      x ∈ assignedIdsFold p lst acc →
      x ∈ acc ∨ ∃ pr ∈ lst, x ∈ routeItemIds p pr.2 := by
  intro lst
  induction lst with
  | nil =>
      intro acc x h
      exact Or.inl h
  | cons pr rest ih =>
      intro acc x h
      obtain ⟨t, r⟩ := pr
      unfold assignedIdsFold at h
      dsimp only at h
      rcases ih _ x h with hacc | ⟨pr2, hpr2, hx2⟩
      · have hsub : x ∈ acc ++ routeItemIds p r := by
          split_ifs at hacc with hv
          · exact hacc
          · exact (List.mem_filter.mp hacc).1
        rcases List.mem_append.mp hsub with h1 | h1
        · exact Or.inl h1
        · exact Or.inr ⟨(t, r), List.mem_cons_self _ _, h1⟩
      · exact Or.inr ⟨pr2, List.mem_cons_of_mem _ hpr2, hx2⟩

theorem routeItemIds_mem (p : Payload) (r : Route) (x : String) (h : x ∈ routeItemIds p r) :
    ∃ q ∈ r.stops, ∃ itF, find_item_by_location p q.1 = some itF ∧ itF.id = x := by
  unfold routeItemIds at h
  rcases List.mem_filterMap.mp h with ⟨q, hq, hmap⟩
  cases hfind : find_item_by_location p q.1 with
  | none => rw [hfind] at hmap; cases hmap
  | some itF =>
      rw [hfind] at hmap
      exact ⟨q, hq, itF, hfind, by simpa using hmap⟩

/-- C3 (amended): a missing travel-matrix entry is charged as the large
finite sentinel 999999, never zero and never a crash; and an item is
guaranteed to end up in unassignedItemIds whenever NO location at all has a
travel-matrix entry into the item's location, the matrix entries and item
durations are non-negative, and every technician's relative window ends
below 999999 seconds — but an item that merely lacks the direct entry from
the technician's start location can still be served through an intermediate
stop, so the original "regardless of time-window slack, from the start
location" form is false. -/
theorem C3_unreachable_amended :
    (∀ (p : Payload) (f t : Int), matrixLookup p.travelTimeMatrix f t = none →
        travel_time_callback p f t = 999999 ∧ (0 : Int) < 999999) ∧
    (∀ (p : Payload) (sol : Solution) (it : OptimizationItem),
        it ∈ p.items →
        (∀ row ∈ p.travelTimeMatrix, row.2.find? (fun q => q.1 == it.locationIndex) = none) →
        (∀ row ∈ p.travelTimeMatrix, ∀ q ∈ row.2, 0 ≤ q.2) →
        (∀ it2 ∈ p.items, 0 ≤ it2.durationSeconds) →
        (∀ t ∈ p.technicians, (techWindowRel p t).2 < 999999) →
        (∀ it2 ∈ p.items, it2.id = it.id → it2.locationIndex = it.locationIndex) →
        FeasibleSolution p sol →
        it.id ∈ unassignedOf p sol) := by
  constructor
  · intro p f t h
    exact ⟨travel_missing p f t h, by norm_num⟩
  · intro p sol it hit hmiss hmat hdur hwin hsameid hfeas
    have hnotin : it.id ∉ assignedIds p sol := by
      intro hmem
      rcases assignedIdsFold_mem p _ [] it.id hmem with hacc | ⟨pr, hpr, hxin⟩
      · cases hacc
      · obtain ⟨t, r⟩ := pr
        have hfr : FeasibleRoute p t r := hfeas.2 (t, r) hpr
        have htmem : t ∈ p.technicians := (List.of_mem_zip hpr).1
        rcases routeItemIds_mem p r it.id hxin with ⟨q, hq, itF, hfind, hid⟩
        obtain ⟨hitFmem, hitFloc⟩ := find_item_spec p q.1 itF hfind
        have hqloc : q.1 = it.locationIndex := by
          rw [← hitFloc]
          exact hsameid itF hitFmem hid
        obtain ⟨n, tm⟩ := q
        obtain ⟨f1, f2, f3, f4, f5, f6, f7, f8, f9, f10, f11⟩ := hfr
        rcases List.append_of_mem hq with ⟨pre, post, hsplit⟩
        rw [hsplit] at f10
        have hat := routeChain_at p pre t.startLocationIndex r.startTime n tm post
          t.endLocationIndex r.endTime f10
        have hqloc2 : n = it.locationIndex := hqloc
        have htravel : travel_time_callback p
            (((pre.getLast?).map Prod.fst).getD t.startLocationIndex) n = 999999 := by
          have := travel_into_missing p it.locationIndex hmiss
            (((pre.getLast?).map Prod.fst).getD t.startLocationIndex)
          rw [hqloc2]
          exact this
        have htransit := transitPS_of_travel_sentinel p _ n htravel
        have hprev0 : 0 ≤ ((pre.getLast?).map Prod.snd).getD r.startTime := by
          cases hgl : pre.getLast? with
          | none => simpa using f5
          | some qq =>
              have hqqmem : qq ∈ r.stops := by
                rw [hsplit]
                exact List.mem_append_left _ (getLast?_mem_list pre qq hgl)
              have := (f9 qq hqqmem).1
              simpa using this
        rw [htransit] at hat
        have hend : tm ≤ r.endTime := by
          refine routeChain_stop_le_end p (transitPS_nonneg p hmat hdur) _ _ _ _ _ (n, tm) f10 ?_
          exact List.mem_append_right _ (List.mem_cons_self _ _)
        have hwine := hwin t htmem
        omega
    refine (mem_unassignedOf_iff p sol it hit).mpr ?_
    cases hc : (assignedIds p sol).contains it.id with
    | false => rfl
    | true => exact absurd (List.elem_iff.mp hc) hnotin

/-- The C3 counterexample payload: item b's location 2 has no matrix entry
from the technician's start location 0, but is reachable through location
1. -/
def c3p : Payload :=
  { locations := [{ index := 0 }, { index := 1 }, { index := 2 }],
    technicians := [{ id := 1, startLocationIndex := 0, endLocationIndex := 0,
                      earliestStart := 0, latestEnd := 10000 }],
    items := [{ id := "a", locationIndex := 1, durationSeconds := 100, priority := 1,
                eligibleTechnicianIds := [1] },
              { id := "b", locationIndex := 2, durationSeconds := 100, priority := 1,
                eligibleTechnicianIds := [1] }],
    fixedConstraints := [],
    travelTimeMatrix := [((0 : Int), [((1 : Int), (10 : Int))]),
                         ((1 : Int), [((2 : Int), (10 : Int))]),
                         ((2 : Int), [((0 : Int), (10 : Int))])] }

/-- The feasible C3 counterexample solution serving both items via the
route 0 → 1 → 2 → 0. -/
def c3sol : Solution :=
  { routes := [{ startTime := 0, stops := [(1, 10), (2, 120)], endTime := 230 }] }

/-- C3 counterexample: the travel matrix has no entry from the technician's
start location 0 into item b's location 2, yet a feasible solver output
serves b (through location 1) and reports nothing unassigned — refuting the
claim that such an item is always unassigned regardless of time-window
slack. -/
theorem C3_counterexample :
    matrixLookup c3p.travelTimeMatrix 0 2 = none ∧
    (c3p.technicians.get? 0).all (fun t => t.startLocationIndex == 0) = true ∧
    (c3p.items.get? 1).all
      (fun it => it.id == "b" && it.locationIndex == 2) = true ∧
    FeasibleSolution c3p c3sol ∧
    unassignedOf c3p c3sol = [] := by
  refine ⟨by decide, by decide, by decide, ⟨by decide, by decide⟩, by decide⟩

/-- The payload for the C3 witness: item a's location 1 has no incoming
matrix entry at all and the technician's window ends well below the
sentinel. -/
def c3wp : Payload :=
  { locations := [{ index := 0 }, { index := 1 }],
    technicians := [{ id := 1, startLocationIndex := 0, endLocationIndex := 0,
                      earliestStart := 0, latestEnd := 1000 }],
    items := [{ id := "a", locationIndex := 1, durationSeconds := 100, priority := 1,
                eligibleTechnicianIds := [1] }],
    fixedConstraints := [],
    travelTimeMatrix := [((0 : Int), [((0 : Int), (5 : Int))])] }

/-- The feasible empty-route solution of the C3 witness. -/
def c3wsol : Solution := { routes := [{ startTime := 0, stops := [], endTime := 5 }] }

/-- Witness for C3: the isolated item a is reported unassigned. -/
theorem C3_unreachable_amended_witness :
    ("a" : String) ∈ unassignedOf c3wp c3wsol :=
  C3_unreachable_amended.2 c3wp c3wsol
    { id := "a", locationIndex := 1, durationSeconds := 100, priority := 1,
      eligibleTechnicianIds := [1] }
    (by decide) (by decide) (by decide) (by decide) (by decide) (by decide)
    ⟨by decide, by decide⟩

end Spec2Proof
